import Mathlib

/-!
Verification development for the chirality-framework Phase 2 execution
engine: the cell cache, the resumable store, the budget tracker, the
resilient LLM invocation layer, the JSON repair loop and the tensor
engine orchestration loop
(`chirality/infrastructure/caching.py`, `chirality/domain/budgets.py`,
`chirality/domain/pricing.py`, `chirality/infrastructure/llm/repair.py`,
`chirality/infrastructure/llm/openai_adapter.py`,
`chirality/application/phase2/tensor_engine.py`).

Python data is modelled shallowly: JSON documents become an inductive
`Json` type, Python dicts become association lists with first-match
lookup and replace-or-append update (Python dict key semantics), machine
floats that only ever flow through arithmetic are modelled as `ℚ`, and
strings whose only role is being formatted into other strings (float
formatting of sampling parameters) are modelled as the formatted string.
Fallible operations return `Option`/`Except`; functions that mutate
`self` take and return an explicit state value.
-/

namespace Chirality

/-- Association list with string keys: the model of a Python `dict`
(first-match lookup) and of a directory of files keyed by file name. -/
abbrev AList (α : Type) := List (String × α)

/-- `d.get(key)` / `key in d`: first-match lookup. -/
def lookupA {α : Type} : AList α → String → Option α
  | [], _ => none
  | (k, v) :: rest, key => if k = key then some v else lookupA rest key

/-- `d[key] = v`: replace the existing binding in place, else append
(Python dict insertion-order semantics). -/
def insertA {α : Type} : AList α → String → α → AList α
  | [], key, v => [(key, v)]
  | (k, w) :: rest, key, v =>
    if k = key then (k, v) :: rest else (k, w) :: insertA rest key v

/-- `del d[key]` / deleting a file: drop the (unique) binding. -/
def eraseA {α : Type} : AList α → String → AList α
  | [], _ => []
  | (k, w) :: rest, key => if k = key then rest else (k, w) :: eraseA rest key

@[simp] theorem lookupA_nil {α : Type} (key : String) :
    lookupA ([] : AList α) key = none := rfl

theorem lookupA_insertA_self {α : Type} (l : AList α) (key : String) (v : α) :
    lookupA (insertA l key v) key = some v := by
  induction l with
  | nil => simp [insertA, lookupA]
  | cons hd tl ih =>
    obtain ⟨k, w⟩ := hd
    by_cases hk : k = key
    · simp [insertA, hk, lookupA]
    · simp [insertA, hk, lookupA, ih]

theorem lookupA_insertA_ne {α : Type} (l : AList α) (key key' : String) (v : α)
    (h : key ≠ key') :
    lookupA (insertA l key v) key' = lookupA l key' := by
  induction l with
  | nil => simp [insertA, lookupA, h]
  | cons hd tl ih =>
    obtain ⟨k, w⟩ := hd
    by_cases hk : k = key
    · subst hk
      simp [insertA, lookupA, h, ih]
    · simp only [insertA, if_neg hk]
      by_cases hk' : k = key'
      · simp [lookupA, hk']
      · simp [lookupA, hk', ih]

/-- JSON documents (`json.load` results). JSON numbers are modelled as
rationals, which covers every numeric value the engine ever stores
(integer indices and counters, float timestamps and confidences). -/
inductive Json where
  | null
  | bool (b : Bool)
  | num (q : ℚ)
  | str (s : String)
  | arr (items : List Json)
  | obj (fields : List (String × Json))

/-- Python truthiness of a JSON value (`if resumed_result:` /
`if cached_result:`): `None`, `False`, `0`, `""`, `[]` and `{}` are
falsy, everything else truthy. -/
def Json.truthy : Json → Bool
  | .null => false
  | .bool b => b
  | .num q => !decide (q = 0)
  | .str s => !(s = "")
  | .arr items => !items.isEmpty
  | .obj fields => !fields.isEmpty

/-- `obj.get(key)`: field lookup on a JSON object, `none` when the value
is not an object or the key is absent. -/
def Json.getField : Json → String → Option Json
  | .obj fields, key => lookupA fields key
  | _, _ => none

/-- `key in obj`: key presence (a `null` value still counts as present). -/
def Json.hasKey (j : Json) (key : String) : Bool :=
  (j.getField key).isSome

/-- Content of one persisted file: either a value that `json.load`
parses successfully, or a corrupt/unreadable file
(`json.JSONDecodeError` territory). -/
inductive FileContent (α : Type) where
  | good (val : α)
  | corrupt

def FileContent.isCorrupt {α : Type} : FileContent α → Bool
  | .good _ => false
  | .corrupt => true

/-! ## CellCache (`chirality/infrastructure/caching.py`, class `CellCache`)

State of one `CellCache` instance: the `enabled` flag, the in-memory
tier `_memory_cache`, and the persistent tier (the `cache_dir`
directory, one file per cache key; a file holds a parseable JSON value
or is corrupt). The in-process lock around `_memory_cache` serialises
accesses; each call below is one critical section, so the lock itself
needs no further modelling. -/

structure CellCacheState where
  enabled : Bool
  memoryCache : AList Json
  disk : AList (FileContent Json)

namespace CellCache

/-- `CellCache.get` (caching.py lines 112-146): disabled → `None`;
check the in-memory tier first; on miss check the on-disk tier and, if
the file parses, populate the memory tier; a corrupt on-disk file is
unlinked and treated as a miss. Returns the result together with the
successor cache state. -/
def get (st : CellCacheState) (cacheKey : String) : Option Json × CellCacheState :=
  if !st.enabled then (none, st)
  else
    match lookupA st.memoryCache cacheKey with
    | some v => (some v, st)
    | none =>
      match lookupA st.disk cacheKey with
      | some (.good v) =>
        (some v, { st with memoryCache := insertA st.memoryCache cacheKey v })
      | some .corrupt => (none, { st with disk := eraseA st.disk cacheKey })
      | none => (none, st)

/-- `CellCache.put` (caching.py lines 148-170): disabled → no-op;
write-through to the memory tier and then to disk. A failed disk write
(`diskWriteOk = false`) is logged and swallowed, leaving only the
memory tier updated. -/
def put (st : CellCacheState) (cacheKey : String) (result : Json)
    (diskWriteOk : Bool) : CellCacheState :=
  if !st.enabled then st
  else
    let st1 := { st with memoryCache := insertA st.memoryCache cacheKey result }
    if diskWriteOk then { st1 with disk := insertA st1.disk cacheKey (.good result) }
    else st1

end CellCache

/-- **C2.** On an enabled cache, `put f v` followed by `get f` returns
`v` (whether or not the persistent-tier write succeeded), and `get` on
a fingerprint present in neither the in-memory nor the persistent tier
returns `none`. -/
theorem C2_cache_put_get_roundtrip (st : CellCacheState) (f g : String) (v : Json)
    (diskWriteOk : Bool) (hen : st.enabled = true)
    (hmem : lookupA st.memoryCache g = none) (hdisk : lookupA st.disk g = none) :
    (CellCache.get (CellCache.put st f v diskWriteOk) f).1 = some v ∧
    (CellCache.get st g).1 = none := by
  constructor
  · unfold CellCache.put CellCache.get
    cases diskWriteOk <;> simp [hen, lookupA_insertA_self]
  · unfold CellCache.get
    simp [hen, hmem, hdisk]

/-- Witness for C2 at a concrete cache state. -/
theorem C2_cache_put_get_roundtrip_witness :
    (CellCache.get
        (CellCache.put ⟨true, [], []⟩ "fp" (Json.str "value") true) "fp").1 =
      some (Json.str "value") ∧
    (CellCache.get ⟨true, [], []⟩ "other").1 = none :=
  C2_cache_put_get_roundtrip ⟨true, [], []⟩ "fp" "other" (Json.str "value")
    true rfl rfl rfl

/-! ## Pricing (`chirality/domain/pricing.py`)

Per-token USD rates. Python floats of the table are exact decimal
literals, modelled as the equal rationals. An entry without a
`cached_input` rate (the legacy models) falls back to the `input` rate,
exactly as `pricing.get("cached_input", pricing.get("input", 0))`. -/

structure ModelPricing where
  inputRate : ℚ
  cachedInputRate : Option ℚ
  outputRate : ℚ

/-- `modelPricingTable` (pricing.py lines 10-72), rates per token derived
from the per-1M list. -/
def modelPricingTable : AList ModelPricing :=
  [("gpt-5", ⟨1.25 / 1000000, some (0.125 / 1000000), 10.00 / 1000000⟩),
   ("gpt-5-mini", ⟨0.25 / 1000000, some (0.025 / 1000000), 2.00 / 1000000⟩),
   ("gpt-5-nano", ⟨0.05 / 1000000, some (0.005 / 1000000), 0.40 / 1000000⟩),
   ("gpt-5-chat-latest", ⟨1.25 / 1000000, some (0.125 / 1000000), 10.00 / 1000000⟩),
   ("gpt-4.1", ⟨2.00 / 1000000, some (0.50 / 1000000), 8.00 / 1000000⟩),
   ("gpt-4.1-mini", ⟨0.40 / 1000000, some (0.10 / 1000000), 1.60 / 1000000⟩),
   ("gpt-4.1-nano", ⟨0.10 / 1000000, some (0.025 / 1000000), 0.40 / 1000000⟩),
   ("gpt-4o", ⟨2.50 / 1000000, some (1.25 / 1000000), 10.00 / 1000000⟩),
   ("gpt-4o-mini", ⟨0.15 / 1000000, some (0.075 / 1000000), 0.60 / 1000000⟩),
   ("gpt-4", ⟨30.00 / 1000000, none, 60.00 / 1000000⟩),
   ("gpt-4-turbo", ⟨10.00 / 1000000, none, 30.00 / 1000000⟩),
   ("gpt-3.5-turbo", ⟨1.00 / 1000000, none, 2.00 / 1000000⟩)]

/-- `calculate_cost` (pricing.py lines 112-140): unknown model → `0.0`;
otherwise `(prompt - cached) * input + cached * cached_input +
completion * output`, with the `cached_input` fallback to `input`. -/
def calculate_cost (model : String) (promptTokens completionTokens cachedTokens : Int) : ℚ :=
  match lookupA modelPricingTable model with
  | none => 0
  | some p =>
    ((promptTokens - cachedTokens : Int) : ℚ) * p.inputRate +
      (cachedTokens : ℚ) * (p.cachedInputRate.getD p.inputRate) +
      (completionTokens : ℚ) * p.outputRate

theorem lookupA_mem {α : Type} (l : AList α) (key : String) (v : α)
    (h : lookupA l key = some v) : (key, v) ∈ l := by
  induction l with
  | nil => simp [lookupA] at h
  | cons hd tl ih =>
    obtain ⟨k, w⟩ := hd
    by_cases hk : k = key
    · subst hk
      simp [lookupA] at h
      simp [h]
    · simp [lookupA, hk] at h
      exact List.mem_cons_of_mem _ (ih h)

theorem pricing_rates_nonneg :
    ∀ e ∈ modelPricingTable, 0 ≤ e.2.inputRate ∧
      0 ≤ e.2.cachedInputRate.getD e.2.inputRate ∧ 0 ≤ e.2.outputRate := by
  intro e he
  simp only [modelPricingTable, List.mem_cons, List.not_mem_nil, or_false] at he
  rcases he with h | h | h | h | h | h | h | h | h | h | h | h <;> subst h <;>
    norm_num

theorem calculate_cost_nonneg (model : String) (p c ch : Int)
    (hp : 0 ≤ p) (hc : 0 ≤ c) (hch : 0 ≤ ch) (hle : ch ≤ p) :
    0 ≤ calculate_cost model p c ch := by
  unfold calculate_cost
  cases hfind : lookupA modelPricingTable model with
  | none => simp
  | some entry =>
    obtain ⟨h1, h2, h3⟩ := pricing_rates_nonneg (model, entry) (lookupA_mem _ _ _ hfind)
    have hreg : (0 : ℚ) ≤ ((p - ch : Int) : ℚ) := by
      exact_mod_cast Int.sub_nonneg.mpr hle
    have hch' : (0 : ℚ) ≤ (ch : ℚ) := by exact_mod_cast hch
    have hc' : (0 : ℚ) ≤ (c : ℚ) := by exact_mod_cast hc
    have := add_nonneg (add_nonneg (mul_nonneg hreg h1) (mul_nonneg hch' h2))
      (mul_nonneg hc' h3)
    simpa using this

/-! ## Budget tracker (`chirality/domain/budgets.py`)

`BudgetConfig` keeps the three optional ceilings (the `model_pricing`
field of the Python dataclass is never consulted by `record_usage`,
which uses the centralized `calculate_cost`, so it is omitted).
`BudgetState` is the mutable counter block of `BudgetTracker`; the
tracker's `start_time` is modelled by passing the elapsed wall-clock
seconds (`time.time() - start_time`) into each check explicitly.
Raising `RuntimeError` is modelled by returning `some BudgetError`
alongside the (already mutated) counters — the Python code updates the
counters before `_check_budgets` raises. -/

structure BudgetConfig where
  token_budget : Option Int
  cost_budget : Option ℚ
  time_budget : Option Int

structure BudgetState where
  token_count : Int
  input_tokens : Int
  output_tokens : Int
  cost_spent : ℚ
  operation_count : Nat

/-- Fresh tracker counters (`BudgetTracker.__init__`). -/
def initialBudgetState : BudgetState := ⟨0, 0, 0, 0, 0⟩

/-- The budget-exceeded condition, carrying the offending metric, its
current value and its configured limit (the data interpolated into the
`RuntimeError` messages of `_check_budgets`). -/
inductive BudgetError where
  | tokenExceeded (current limit : Int)
  | costExceeded (current limit : ℚ)
  | timeExceeded (elapsed : ℚ) (limit : Int)

def raisesToken : Option BudgetError → Bool
  | some (.tokenExceeded _ _) => true
  | _ => false

def raisesCost : Option BudgetError → Bool
  | some (.costExceeded _ _) => true
  | _ => false

def raisesTime : Option BudgetError → Bool
  | some (.timeExceeded _ _) => true
  | _ => false

/-- Token guard of `_check_budgets` (budgets.py lines 92-99):
`if self.config.token_budget and self.token_count > self.config.token_budget`
— Python truthiness skips the check when the limit is `None` **or**
`0`; exceeding is strict (`>`). -/
def checkTokenBudget (limit : Option Int) (s : BudgetState) : Option BudgetError :=
  match limit with
  | some b =>
    if b ≠ 0 ∧ b < s.token_count then some (.tokenExceeded s.token_count b) else none
  | none => none

/-- Cost guard of `_check_budgets` (budgets.py lines 101-108), same
truthiness and strictness. -/
def checkCostBudget (limit : Option ℚ) (s : BudgetState) : Option BudgetError :=
  match limit with
  | some cb =>
    if cb ≠ 0 ∧ cb < s.cost_spent then some (.costExceeded s.cost_spent cb) else none
  | none => none

/-- Time guard of `_check_budgets` (budgets.py lines 110-119), over the
elapsed wall-clock seconds. -/
def checkTimeBudget (limit : Option Int) (elapsed : ℚ) : Option BudgetError :=
  match limit with
  | some tb =>
    if tb ≠ 0 ∧ (tb : ℚ) < elapsed then some (.timeExceeded elapsed tb) else none
  | none => none

/-- `BudgetTracker._check_budgets` (budgets.py lines 89-119): the three
guards in source order — token, then cost, then time; the first
violated guard raises. -/
def checkBudgets (cfg : BudgetConfig) (s : BudgetState) (elapsed : ℚ) :
    Option BudgetError :=
  match checkTokenBudget cfg.token_budget s with
  | some e => some e
  | none =>
    match checkCostBudget cfg.cost_budget s with
    | some e => some e
    | none => checkTimeBudget cfg.time_budget elapsed

/-- One LLM call's usage metadata (`metadata.get(..., 0)` token counts). -/
structure UsageMeta where
  total_tokens : Int
  prompt_tokens : Int
  completion_tokens : Int
  cached_tokens : Int

/-- `BudgetTracker.record_usage` (budgets.py lines 59-87): accumulate
the counters and the cost, then check all budgets. The mutated state
is returned even when a budget error is raised. -/
def record_usage (cfg : BudgetConfig) (s : BudgetState) (meta : UsageMeta)
    (model : String) (elapsed : ℚ) : BudgetState × Option BudgetError :=
  let s1 : BudgetState :=
    { token_count := s.token_count + meta.total_tokens
      input_tokens := s.input_tokens + meta.prompt_tokens
      output_tokens := s.output_tokens + meta.completion_tokens
      cost_spent := s.cost_spent +
        calculate_cost model meta.prompt_tokens meta.completion_tokens meta.cached_tokens
      operation_count := s.operation_count + 1 }
  (s1, checkBudgets cfg s1 elapsed)

/-- A sequence of `record_usage` calls (each with its elapsed time),
keeping only the accumulated state. -/
def runUsage (cfg : BudgetConfig) (model : String) :
    BudgetState → List (UsageMeta × ℚ) → BudgetState
  | s, [] => s
  | s, (u, t) :: rest => runUsage cfg model (record_usage cfg s u model t).1 rest

/-- Metadata with non-negative token counts whose cached-token count
does not exceed the prompt-token count. -/
def validMeta (u : UsageMeta) : Prop :=
  0 ≤ u.total_tokens ∧ 0 ≤ u.prompt_tokens ∧ 0 ≤ u.completion_tokens ∧
    0 ≤ u.cached_tokens ∧ u.cached_tokens ≤ u.prompt_tokens

/-- Pointwise order on the five counters. -/
def countersLE (s t : BudgetState) : Prop :=
  s.token_count ≤ t.token_count ∧ s.input_tokens ≤ t.input_tokens ∧
    s.output_tokens ≤ t.output_tokens ∧ s.cost_spent ≤ t.cost_spent ∧
    s.operation_count ≤ t.operation_count

theorem record_usage_mono (cfg : BudgetConfig) (s : BudgetState) (u : UsageMeta)
    (model : String) (t : ℚ) (hu : validMeta u) :
    countersLE s (record_usage cfg s u model t).1 := by
  obtain ⟨h1, h2, h3, h4, h5⟩ := hu
  refine ⟨by simp [record_usage]; omega, by simp [record_usage]; omega,
    by simp [record_usage]; omega, ?_, by simp [record_usage]⟩
  simp only [record_usage]
  have := calculate_cost_nonneg model u.prompt_tokens u.completion_tokens
    u.cached_tokens h2 h3 h4 h5
  linarith

theorem countersLE_refl (s : BudgetState) : countersLE s s :=
  ⟨le_refl _, le_refl _, le_refl _, le_refl _, le_refl _⟩

theorem countersLE_trans {s t r : BudgetState}
    (h1 : countersLE s t) (h2 : countersLE t r) : countersLE s r :=
  ⟨le_trans h1.1 h2.1, le_trans h1.2.1 h2.2.1, le_trans h1.2.2.1 h2.2.2.1,
    le_trans h1.2.2.2.1 h2.2.2.2.1, le_trans h1.2.2.2.2 h2.2.2.2.2⟩

theorem runUsage_mono (cfg : BudgetConfig) (model : String)
    (us : List (UsageMeta × ℚ)) (s : BudgetState)
    (hval : ∀ u ∈ us, validMeta u.1) :
    countersLE s (runUsage cfg model s us) := by
  induction us generalizing s with
  | nil => exact countersLE_refl s
  | cons hd tl ih =>
    obtain ⟨u, t⟩ := hd
    refine countersLE_trans (record_usage_mono cfg s u model t ?_) (ih _ ?_)
    · exact hval (u, t) (List.mem_cons_self _ _)
    · intro w hw
      exact hval w (List.mem_cons_of_mem _ hw)

theorem runUsage_append (cfg : BudgetConfig) (model : String)
    (s : BudgetState) (l1 l2 : List (UsageMeta × ℚ)) :
    runUsage cfg model s (l1 ++ l2) = runUsage cfg model (runUsage cfg model s l1) l2 := by
  induction l1 generalizing s with
  | nil => rfl
  | cons hd tl ih =>
    obtain ⟨u, t⟩ := hd
    simp [runUsage, ih]

/-- **C3.** For every sequence of `record_usage` calls with
non-negative token counts (and `cached_tokens ≤ prompt_tokens`), all
five counters are non-decreasing across calls; and any call after which
the accumulated token count strictly exceeds a non-zero configured
token budget returns the budget-exceeded error naming the token metric,
its current value and its limit — hence the first crossing call and,
by monotonicity, every subsequent call raise it. -/
theorem C3_budget_monotone_and_sticky (cfg : BudgetConfig) (model : String)
    (s0 : BudgetState) (us : List (UsageMeta × ℚ)) (b : Int)
    (hb : cfg.token_budget = some b) (hb0 : b ≠ 0)
    (hval : ∀ u ∈ us, validMeta u.1) :
    (∀ i j : Nat, i ≤ j →
      countersLE (runUsage cfg model s0 (us.take i)) (runUsage cfg model s0 (us.take j))) ∧
    (∀ i : Nat, ∀ hi : i < us.length,
      b < (record_usage cfg (runUsage cfg model s0 (us.take i))
              (us.get ⟨i, hi⟩).1 model (us.get ⟨i, hi⟩).2).1.token_count →
        (record_usage cfg (runUsage cfg model s0 (us.take i))
            (us.get ⟨i, hi⟩).1 model (us.get ⟨i, hi⟩).2).2 =
          some (.tokenExceeded
            (record_usage cfg (runUsage cfg model s0 (us.take i))
                (us.get ⟨i, hi⟩).1 model (us.get ⟨i, hi⟩).2).1.token_count b)) := by
  constructor
  · intro i j hij
    have hdecomp : us.take j = us.take i ++ (us.drop i).take (j - i) := by
      rw [← List.take_add]
      congr 1
      omega
    rw [hdecomp, runUsage_append]
    apply runUsage_mono
    intro u hu
    exact hval u (List.mem_of_mem_drop (List.mem_of_mem_take hu))
  · intro i hi hcross
    simp only [record_usage] at hcross ⊢
    unfold checkBudgets checkTokenBudget
    rw [hb]
    simp only [if_pos (And.intro hb0 hcross)]

/-- Witness for C3: token budget 5, a first call consuming 10 tokens
crosses it and returns the token-exceeded error. -/
theorem C3_budget_monotone_and_sticky_witness :
    countersLE
      (runUsage ⟨some 5, none, none⟩ "gpt-4" initialBudgetState
        ([(⟨10, 6, 4, 0⟩, 0)].take 0))
      (runUsage ⟨some 5, none, none⟩ "gpt-4" initialBudgetState
        ([(⟨10, 6, 4, 0⟩, 0)].take 1)) ∧
    (record_usage ⟨some 5, none, none⟩
        (runUsage ⟨some 5, none, none⟩ "gpt-4" initialBudgetState
          ([((⟨10, 6, 4, 0⟩ : UsageMeta), (0 : ℚ))].take 0))
        (⟨10, 6, 4, 0⟩ : UsageMeta) "gpt-4" 0).2 =
      some (.tokenExceeded 10 5) := by
  have h := C3_budget_monotone_and_sticky ⟨some 5, none, none⟩ "gpt-4"
    initialBudgetState [(⟨10, 6, 4, 0⟩, 0)] 5 rfl (by decide)
    (by
      intro u hu
      simp at hu
      subst hu
      exact ⟨by decide, by decide, by decide, by decide, by decide⟩)
  refine ⟨h.1 0 1 (by decide), ?_⟩
  have h2 := h.2 0 (by decide)
  have hc : (5 : Int) <
      (record_usage ⟨some 5, none, none⟩
        (runUsage ⟨some 5, none, none⟩ "gpt-4" initialBudgetState
          ([((⟨10, 6, 4, 0⟩ : UsageMeta), (0 : ℚ))].take 0))
        (⟨10, 6, 4, 0⟩ : UsageMeta) "gpt-4" 0).1.token_count := by
    simp [runUsage, record_usage, initialBudgetState]
  have := h2 hc
  simpa [runUsage, record_usage, initialBudgetState] using this

theorem checkTokenBudget_shape (limit : Option Int) (s : BudgetState) :
    checkTokenBudget limit s = none ∨
      ∃ c l, checkTokenBudget limit s = some (.tokenExceeded c l) := by
  cases limit with
  | none => exact Or.inl rfl
  | some b =>
    by_cases h : b ≠ 0 ∧ b < s.token_count
    · exact Or.inr ⟨s.token_count, b, by simp [checkTokenBudget, h]⟩
    · exact Or.inl (by simp [checkTokenBudget, h])

theorem checkCostBudget_shape (limit : Option ℚ) (s : BudgetState) :
    checkCostBudget limit s = none ∨
      ∃ c l, checkCostBudget limit s = some (.costExceeded c l) := by
  cases limit with
  | none => exact Or.inl rfl
  | some cb =>
    by_cases h : cb ≠ 0 ∧ cb < s.cost_spent
    · exact Or.inr ⟨s.cost_spent, cb, by simp [checkCostBudget, h]⟩
    · exact Or.inl (by simp [checkCostBudget, h])

theorem checkTimeBudget_shape (limit : Option Int) (elapsed : ℚ) :
    checkTimeBudget limit elapsed = none ∨
      ∃ c l, checkTimeBudget limit elapsed = some (.timeExceeded c l) := by
  cases limit with
  | none => exact Or.inl rfl
  | some tb =>
    by_cases h : tb ≠ 0 ∧ (tb : ℚ) < elapsed
    · exact Or.inr ⟨elapsed, tb, by simp [checkTimeBudget, h]⟩
    · exact Or.inl (by simp [checkTimeBudget, h])

theorem raisesToken_checkBudgets (cfg : BudgetConfig) (s : BudgetState) (elapsed : ℚ)
    (h : checkTokenBudget cfg.token_budget s = none) :
    raisesToken (checkBudgets cfg s elapsed) = false := by
  unfold checkBudgets
  rw [h]
  rcases checkCostBudget_shape cfg.cost_budget s with h2 | ⟨c, l, h2⟩ <;>
    rcases checkTimeBudget_shape cfg.time_budget elapsed with h3 | ⟨c3, l3, h3⟩ <;>
    simp [h2, h3, raisesToken]

theorem raisesCost_checkBudgets (cfg : BudgetConfig) (s : BudgetState) (elapsed : ℚ)
    (h : checkCostBudget cfg.cost_budget s = none) :
    raisesCost (checkBudgets cfg s elapsed) = false := by
  unfold checkBudgets
  rcases checkTokenBudget_shape cfg.token_budget s with h1 | ⟨c, l, h1⟩ <;> rw [h1]
  · rw [h]
    rcases checkTimeBudget_shape cfg.time_budget elapsed with h3 | ⟨c3, l3, h3⟩ <;>
      simp [h3, raisesCost]
  · simp [raisesCost]

theorem raisesTime_checkBudgets (cfg : BudgetConfig) (s : BudgetState) (elapsed : ℚ)
    (h : checkTimeBudget cfg.time_budget elapsed = none) :
    raisesTime (checkBudgets cfg s elapsed) = false := by
  unfold checkBudgets
  rcases checkTokenBudget_shape cfg.token_budget s with h1 | ⟨c, l, h1⟩ <;> rw [h1]
  · rcases checkCostBudget_shape cfg.cost_budget s with h2 | ⟨c2, l2, h2⟩ <;>
      simp [h2, h, raisesTime]
  · simp [raisesTime]

/-- **C10.** A ceiling configured to a Python-falsy value (`0` tokens,
`0.0` dollars, `0` seconds) is never enforced: `record_usage` behaves
exactly as with an unconfigured (`None`) ceiling for that dimension,
and in particular never returns the corresponding budget-exceeded
error, whatever usage accumulates. -/
theorem C10_zero_budget_never_raises (cfg : BudgetConfig) (s : BudgetState)
    (meta : UsageMeta) (model : String) (elapsed : ℚ) :
    (record_usage { cfg with token_budget := some 0 } s meta model elapsed =
      record_usage { cfg with token_budget := none } s meta model elapsed) ∧
    (record_usage { cfg with cost_budget := some 0 } s meta model elapsed =
      record_usage { cfg with cost_budget := none } s meta model elapsed) ∧
    (record_usage { cfg with time_budget := some 0 } s meta model elapsed =
      record_usage { cfg with time_budget := none } s meta model elapsed) ∧
    raisesToken (record_usage { cfg with token_budget := some 0 } s meta model elapsed).2 = false ∧
    raisesCost (record_usage { cfg with cost_budget := some 0 } s meta model elapsed).2 = false ∧
    raisesTime (record_usage { cfg with time_budget := some 0 } s meta model elapsed).2 = false := by
  have hzt : ∀ t, checkTokenBudget (some 0) t = none := by
    intro t
    simp [checkTokenBudget]
  have hzc : ∀ t, checkCostBudget (some 0) t = none := by
    intro t
    simp [checkCostBudget]
  have hzd : ∀ e, checkTimeBudget (some 0) e = none := by
    intro e
    simp [checkTimeBudget]
  refine ⟨?_, ?_, ?_, ?_, ?_, ?_⟩
  · simp [record_usage, checkBudgets, hzt, checkTokenBudget]
  · simp [record_usage, checkBudgets, hzc, checkCostBudget]
  · simp [record_usage, checkBudgets, hzd, checkTimeBudget]
  · simp only [record_usage]
    exact raisesToken_checkBudgets { cfg with token_budget := some 0 } _ _ (hzt _)
  · simp only [record_usage]
    exact raisesCost_checkBudgets { cfg with cost_budget := some 0 } _ _ (hzc _)
  · simp only [record_usage]
    exact raisesTime_checkBudgets { cfg with time_budget := some 0 } _ _ (hzd _)

/-- Witness for C10 at a concrete zero-token-budget configuration. -/
theorem C10_zero_budget_never_raises_witness :
    (record_usage ⟨some 0, none, none⟩ initialBudgetState ⟨5, 3, 2, 0⟩ "gpt-4" 0 =
      record_usage ⟨none, none, none⟩ initialBudgetState ⟨5, 3, 2, 0⟩ "gpt-4" 0) ∧
    raisesToken
      (record_usage ⟨some 0, none, none⟩ initialBudgetState ⟨5, 3, 2, 0⟩ "gpt-4" 0).2 =
      false := by
  have h := C10_zero_budget_never_raises ⟨none, none, none⟩ initialBudgetState
    ⟨5, 3, 2, 0⟩ "gpt-4" 0
  exact ⟨h.1, h.2.2.2.1⟩

/-! ## JSON repair loop (`chirality/infrastructure/llm/repair.py`)

`try_parse_json_or_repair` receives an `adapter_call`; successive
invocations are modelled as a function from the 0-based invocation
number to the returned `(response, metadata)` pair. A response is
either an already-parsed dict without `"content"`/`"text"` keys, or a
raw reply under a `"content"` or `"text"` key. `json.loads` and
`json.dumps` are the Python standard-library boundary and enter as
explicit function arguments (`parse`, `dumps`); `parse s = none` models
`json.JSONDecodeError`. The ephemeral repair-prompt construction
(`_ephemeral_repair_call`) only shapes the worker input, which the
abstract `adapter` already absorbs. -/

inductive AdapterResp where
  | parsedDict (j : Json)
  | rawContent (s : String)
  | rawText (s : String)

/-- `response.get("content", response.get("text", ""))` (repair.py
lines 96 and 141). -/
def AdapterResp.contentKey : AdapterResp → String
  | .parsedDict _ => ""
  | .rawContent s => s
  | .rawText s => s

/-- The raw reply carried by a response once it reaches the repair
loop: `json.dumps(response)` for a parsed dict (repair.py line 139),
the raw string otherwise. -/
def AdapterResp.rawReply (dumps : Json → String) : AdapterResp → String
  | .parsedDict j => dumps j
  | .rawContent s => s
  | .rawText s => s

/-- `_basic_validate` (repair.py lines 39-77): minimal contract checks
per artifact tail. Only the boolean verdict drives control flow (the
`why` string is debug output). A missing `"artifact"` key and a JSON
`null` value both make Python's `obj.get("artifact")` return `None`. -/
def basicValidate (j : Json) : Bool :=
  match j with
  | .obj fields =>
    match lookupA fields "artifact" with
    | none => false
    | some .null => false
    | some (.str "matrix") =>
      ["name", "station", "rows", "cols", "step", "elements"].all
        (fun k => (lookupA fields k).isSome)
    | some (.str "lenses") =>
      ["station", "rows", "cols", "lenses"].all (fun k => (lookupA fields k).isSome)
    | some (.str "lens_catalog") =>
      ["station", "rows", "cols", "lenses"].all (fun k => (lookupA fields k).isSome)
    | some (.str "aggregated_output") =>
      ["matrices", "meta"].all (fun k => (lookupA fields k).isSome)
    | some _ => false
  | _ => false

/-- Terminal failures of the repair protocol: `repairFailed n preview`
is the `json.JSONDecodeError` raised after exhausting the `n` repair
attempts, carrying the 200-character truncation of the last raw reply
(repair.py lines 150-157); `unexpectedContent` is the fallback raise at
line 160 (reached when `max_repair_attempts = 0`). -/
inductive RepairError where
  | repairFailed (attempts : Nat) (finalPreview : String)
  | unexpectedContent (content : String)

/-- The repair `for attempt in range(max_repair_attempts)` loop
(repair.py lines 109-157). `remaining` counts the attempts still
available (`remaining = 1` is the last attempt, i.e.
`attempt == max_repair_attempts - 1`); `calls` counts adapter
invocations made so far, which is also the index of the next one.
Returns the result paired with the total invocation count. -/
def repairLoop (parse : String → Option Json) (dumps : Json → String)
    (adapter : Nat → AdapterResp × Json) (maxRepair : Nat) :
    Nat → Nat → String → Except RepairError (Json × Json) × Nat
  | 0, calls, content => (.error (.unexpectedContent content), calls)
  | rem + 1, calls, _content =>
    let call := adapter calls
    match call.1 with
    | .parsedDict j =>
      if basicValidate j then (.ok (j, call.2), calls + 1)
      else
        let content1 := dumps j
        if rem = 0 then
          (.error (.repairFailed maxRepair (content1.take 200)), calls + 1)
        else repairLoop parse dumps adapter maxRepair rem (calls + 1) content1
    | .rawContent s | .rawText s =>
      match parse s with
      | some p =>
        if basicValidate p then (.ok (p, call.2), calls + 1)
        else if rem = 0 then
          (.error (.repairFailed maxRepair (s.take 200)), calls + 1)
        else repairLoop parse dumps adapter maxRepair rem (calls + 1) s
      | none =>
        if rem = 0 then
          (.error (.repairFailed maxRepair (s.take 200)), calls + 1)
        else repairLoop parse dumps adapter maxRepair rem (calls + 1) s

/-- `try_parse_json_or_repair` (repair.py lines 12-160): first attempt,
then the bounded repair loop. For a parsed dict that fails validation
the fall-through sets `content = ""` and `json.loads("")` is attempted
before repairing. Returns the parsed result with its call's metadata,
or the terminal error, together with the total adapter invocation
count. -/
def try_parse_json_or_repair (parse : String → Option Json) (dumps : Json → String)
    (adapter : Nat → AdapterResp × Json) (maxRepair : Nat) :
    Except RepairError (Json × Json) × Nat :=
  let call := adapter 0
  match call.1 with
  | .parsedDict j =>
    if basicValidate j then (.ok (j, call.2), 1)
    else
      match parse "" with
      | some p =>
        if basicValidate p then (.ok (p, call.2), 1)
        else repairLoop parse dumps adapter maxRepair maxRepair 1 ""
      | none => repairLoop parse dumps adapter maxRepair maxRepair 1 ""
  | .rawContent s | .rawText s =>
    match parse s with
    | some p =>
      if basicValidate p then (.ok (p, call.2), 1)
      else repairLoop parse dumps adapter maxRepair maxRepair 1 s
    | none => repairLoop parse dumps adapter maxRepair maxRepair 1 s

/-- A response that is unparseable or schema-invalid: a parsed dict
failing `_basic_validate`, or a raw reply that fails `json.loads` or
whose parse fails `_basic_validate`. -/
def invalidResp (parse : String → Option Json) : AdapterResp → Prop
  | .parsedDict j => basicValidate j = false
  | .rawContent s =>
    match parse s with
    | some p => basicValidate p = false
    | none => True
  | .rawText s =>
    match parse s with
    | some p => basicValidate p = false
    | none => True

theorem repairLoop_allInvalid (parse : String → Option Json) (dumps : Json → String)
    (adapter : Nat → AdapterResp × Json) (maxRepair : Nat)
    (hinv : ∀ i, invalidResp parse (adapter i).1) :
    ∀ rem calls content, 1 ≤ rem →
      repairLoop parse dumps adapter maxRepair rem calls content =
        (.error (.repairFailed maxRepair
            (((adapter (calls + rem - 1)).1.rawReply dumps).take 200)),
          calls + rem) := by
  intro rem
  induction rem with
  | zero => omega
  | succ rem ih =>
    intro calls content _h1
    have hi := hinv calls
    cases rem with
    | zero =>
      cases hresp : (adapter calls).1 with
      | parsedDict j =>
        rw [hresp] at hi
        simp only [invalidResp] at hi
        simp [repairLoop, hresp, hi, AdapterResp.rawReply]
      | rawContent s =>
        rw [hresp] at hi
        simp only [invalidResp] at hi
        cases hp : parse s with
        | some p =>
          rw [hp] at hi
          simp [repairLoop, hresp, hp, hi, AdapterResp.rawReply]
        | none => simp [repairLoop, hresp, hp, AdapterResp.rawReply]
      | rawText s =>
        rw [hresp] at hi
        simp only [invalidResp] at hi
        cases hp : parse s with
        | some p =>
          rw [hp] at hi
          simp [repairLoop, hresp, hp, hi, AdapterResp.rawReply]
        | none => simp [repairLoop, hresp, hp, AdapterResp.rawReply]
    | succ rem2 =>
      have harith1 : calls + 1 + (rem2 + 1) - 1 = calls + (rem2 + 1 + 1) - 1 := by omega
      have harith2 : calls + 1 + (rem2 + 1) = calls + (rem2 + 1 + 1) := by omega
      cases hresp : (adapter calls).1 with
      | parsedDict j =>
        rw [hresp] at hi
        simp only [invalidResp] at hi
        rw [repairLoop]
        simp only [hresp, hi, Bool.false_eq_true, if_false, Nat.succ_ne_zero, if_neg]
        rw [ih (calls + 1) (dumps j) (by omega), harith1, harith2]
      | rawContent s =>
        rw [hresp] at hi
        simp only [invalidResp] at hi
        rw [repairLoop]
        cases hp : parse s with
        | some p =>
          rw [hp] at hi
          simp only [hresp, hp, hi, Bool.false_eq_true, if_false, Nat.succ_ne_zero, if_neg]
          rw [ih (calls + 1) s (by omega), harith1, harith2]
        | none =>
          simp only [hresp, hp, Nat.succ_ne_zero, if_neg]
          rw [ih (calls + 1) s (by omega), harith1, harith2]
          simp
      | rawText s =>
        rw [hresp] at hi
        simp only [invalidResp] at hi
        rw [repairLoop]
        cases hp : parse s with
        | some p =>
          rw [hp] at hi
          simp only [hresp, hp, hi, Bool.false_eq_true, if_false, Nat.succ_ne_zero, if_neg]
          rw [ih (calls + 1) s (by omega), harith1, harith2]
        | none =>
          simp only [hresp, hp, Nat.succ_ne_zero, if_neg]
          rw [ih (calls + 1) s (by omega), harith1, harith2]
          simp

/-- **C4.** Against an adapter whose every response is unparseable or
schema-invalid, `try_parse_json_or_repair` with `max_repair_attempts = n`
(`n ≥ 1`) makes exactly `1 + n` adapter invocations — the original
attempt plus `n` repair attempts — and raises the terminal
unparseable-result error carrying the 200-character truncated preview
of the last raw reply. (`parse "" = none` records that `json.loads`
rejects the empty string.) -/
theorem C4_repair_bounded (parse : String → Option Json) (dumps : Json → String)
    (adapter : Nat → AdapterResp × Json) (n : Nat) (hn : 1 ≤ n)
    (hempty : parse "" = none)
    (hinv : ∀ i, invalidResp parse (adapter i).1) :
    try_parse_json_or_repair parse dumps adapter n =
      (.error (.repairFailed n (((adapter n).1.rawReply dumps).take 200)), 1 + n) := by
  have hloop := fun c => repairLoop_allInvalid parse dumps adapter n hinv n 1 c hn
  have h0 := hinv 0
  have hidx : 1 + n - 1 = n := by omega
  unfold try_parse_json_or_repair
  cases hresp : (adapter 0).1 with
  | parsedDict j =>
    rw [hresp] at h0
    simp only [invalidResp] at h0
    simp only [hresp, h0, Bool.false_eq_true, if_false, hempty]
    rw [hloop, hidx]
  | rawContent s =>
    rw [hresp] at h0
    simp only [invalidResp] at h0
    cases hp : parse s with
    | some p =>
      rw [hp] at h0
      simp only [hresp, hp, h0, Bool.false_eq_true, if_false]
      rw [hloop, hidx]
    | none =>
      simp only [hresp, hp]
      rw [hloop, hidx]
  | rawText s =>
    rw [hresp] at h0
    simp only [invalidResp] at h0
    cases hp : parse s with
    | some p =>
      rw [hp] at h0
      simp only [hresp, hp, h0, Bool.false_eq_true, if_false]
      rw [hloop, hidx]
    | none =>
      simp only [hresp, hp]
      rw [hloop, hidx]

/-- Witness for C4: an adapter that always answers the unparseable raw
reply `"oops"`, with one repair attempt: two invocations in total, then
the terminal error previewing `"oops"`. -/
theorem C4_repair_bounded_witness :
    try_parse_json_or_repair (fun _ => none) (fun _ => "")
        (fun _ => (.rawContent "oops", .null)) 1 =
      (.error (.repairFailed 1 ("oops".take 200)), 2) :=
  C4_repair_bounded (fun _ => none) (fun _ => "")
    (fun _ => (.rawContent "oops", .null)) 1 (by omega) rfl
    (fun _ => True.intro)

/-! ## Resilient invocation layer
(`chirality/infrastructure/llm/openai_adapter.py`, `LLMClient._call_with_retry`)

One logical request is a function from the 0-based attempt number to
that attempt's outcome (the API call either returns a response or
raises). The source classifies a raised exception by its type and by
substring matching on its message (`RateLimitError`; `TypeError`
re-raised as-is; timeout/connection by name or message; `APIError` by
name; everything else unclassified) — the model carries the resulting
class directly. Backoff sleeps are real time; the model records the
deterministic base `2 ^ attempt` of each backoff (the uniform jitter
term is not modelled). Timeout escalation per attempt only configures
the client and is not modelled. -/

inductive ErrClass where
  | rateLimit
  | timeoutConn
  | apiError
  | typeErr
  | unclassified
  deriving DecidableEq

def ErrClass.isTransient : ErrClass → Bool
  | .rateLimit => true
  | .timeoutConn => true
  | _ => false

/-- A raised exception: its retry class and its message. -/
structure ApiErrorInfo where
  cls : ErrClass
  msg : String

inductive CallOutcome (ρ : Type) where
  | ok (resp : ρ)
  | raised (e : ApiErrorInfo)

/-- Result of `_call_with_retry`: a response (with the attempt number
that succeeded, observable in the retry log), a directly re-raised
`TypeError`, or the terminal
`Exception(f"LLM API call failed after {max_retries + 1} attempts: {last_exception}")`
wrapping the last underlying error — note the reported count is always
`max_retries + 1`. -/
inductive RetryResult (ρ : Type) where
  | success (resp : ρ) (attempt : Nat)
  | reraised (e : ApiErrorInfo)
  | terminal (reportedAttempts : Nat) (last : ApiErrorInfo)

/-- The `for attempt in range(max_retries + 1)` loop of
`_call_with_retry` (openai_adapter.py lines 80-162). `remaining` is
`max_retries - attempt` (so `remaining = 0` means this is the final
allowed attempt); rate-limit and timeout/connection errors back off
(base `2 ^ attempt` recorded) and retry while attempts remain;
`TypeError` is re-raised; `APIError` and unclassified errors break out
immediately; breaking out raises the terminal wrapper. Returns the
result, the number of attempts actually made, and the backoff trace. -/
def retryGo {ρ : Type} (api : Nat → CallOutcome ρ) (maxRetries : Nat) :
    Nat → Nat → List Nat → RetryResult ρ × Nat × List Nat
  | 0, attempt, sleeps =>
    match api attempt with
    | .ok r => (.success r attempt, attempt + 1, sleeps)
    | .raised e =>
      match e.cls with
      | .typeErr => (.reraised e, attempt + 1, sleeps)
      | _ => (.terminal (maxRetries + 1) e, attempt + 1, sleeps)
  | rem + 1, attempt, sleeps =>
    match api attempt with
    | .ok r => (.success r attempt, attempt + 1, sleeps)
    | .raised e =>
      match e.cls with
      | .typeErr => (.reraised e, attempt + 1, sleeps)
      | .rateLimit => retryGo api maxRetries rem (attempt + 1) (sleeps ++ [2 ^ attempt])
      | .timeoutConn => retryGo api maxRetries rem (attempt + 1) (sleeps ++ [2 ^ attempt])
      | .apiError => (.terminal (maxRetries + 1) e, attempt + 1, sleeps)
      | .unclassified => (.terminal (maxRetries + 1) e, attempt + 1, sleeps)

/-- `LLMClient._call_with_retry` (default `max_retries = 3`, i.e. at
most 4 total tries). -/
def call_with_retry {ρ : Type} (api : Nat → CallOutcome ρ) (maxRetries : Nat) :
    RetryResult ρ × Nat × List Nat :=
  retryGo api maxRetries maxRetries 0 []

theorem retryGo_transient {ρ : Type} (api : Nat → CallOutcome ρ) (maxRetries : Nat) :
    ∀ rem attempt sleeps,
      (∀ i, attempt ≤ i → i ≤ attempt + rem →
        ∃ e, api i = .raised e ∧ e.cls.isTransient = true) →
      ∃ e, api (attempt + rem) = .raised e ∧
        retryGo api maxRetries rem attempt sleeps =
          (.terminal (maxRetries + 1) e, attempt + rem + 1,
            sleeps ++ (List.range rem).map (fun k => 2 ^ (attempt + k))) := by
  intro rem
  induction rem with
  | zero =>
    intro attempt sleeps h
    obtain ⟨e, he, htr⟩ := h attempt (le_refl _) (by omega)
    refine ⟨e, by simpa using he, ?_⟩
    cases hcls : e.cls <;> simp [hcls, ErrClass.isTransient] at htr <;>
      simp [retryGo, he, hcls]
  | succ rem ih =>
    intro attempt sleeps h
    obtain ⟨e, he, htr⟩ := h attempt (le_refl _) (by omega)
    have hnext : ∀ i, attempt + 1 ≤ i → i ≤ attempt + 1 + rem →
        ∃ e2, api i = .raised e2 ∧ e2.cls.isTransient = true := by
      intro i h1 h2
      exact h i (by omega) (by omega)
    obtain ⟨e2, he2, hres⟩ := ih (attempt + 1) (sleeps ++ [2 ^ attempt]) hnext
    have harith : attempt + 1 + rem = attempt + (rem + 1) := by omega
    rw [harith] at he2 hres
    refine ⟨e2, he2, ?_⟩
    have hmap : (sleeps ++ [2 ^ attempt]) ++
        (List.range rem).map (fun k => 2 ^ (attempt + 1 + k)) =
        sleeps ++ (List.range (rem + 1)).map (fun k => 2 ^ (attempt + k)) := by
      rw [List.range_succ_eq_map]
      simp only [List.map_cons, Nat.add_zero, List.map_map, List.append_assoc,
        List.singleton_append]
      congr 2
      apply List.map_congr_left
      intro a ha
      simp only [Function.comp_apply]
      congr 1
      omega
    cases hcls : e.cls <;> simp [hcls, ErrClass.isTransient] at htr
    · rw [retryGo]
      simp only [he, hcls]
      rw [hres, hmap]
    · rw [retryGo]
      simp only [he, hcls]
      rw [hres, hmap]

/-- **C5.** (i) If every attempt up to `max_retries` fails with a
transient error (rate-limit or timeout/connection), the layer retries
with exponential backoff through all `max_retries + 1` tries (backoff
bases `2^0, …, 2^(max_retries - 1)`) and then raises the terminal
failure wrapping the last underlying error and reporting the total
attempt count `max_retries + 1`. (ii) A permanent `APIError` or an
unclassified error on the first attempt is surfaced after that single
attempt, with no retry and no backoff, wrapped in the terminal failure.
(iii) A `TypeError` on the first attempt is re-raised as-is after that
single attempt. -/
theorem C5_retry_policy {ρ : Type} (api : Nat → CallOutcome ρ) (maxRetries : Nat) :
    ((∀ i, i ≤ maxRetries → ∃ e, api i = .raised e ∧ e.cls.isTransient = true) →
      ∃ e, api maxRetries = .raised e ∧
        call_with_retry api maxRetries =
          (.terminal (maxRetries + 1) e, maxRetries + 1,
            (List.range maxRetries).map (fun k => 2 ^ k))) ∧
    (∀ e, api 0 = .raised e → e.cls = .apiError ∨ e.cls = .unclassified →
      call_with_retry api maxRetries = (.terminal (maxRetries + 1) e, 1, [])) ∧
    (∀ e, api 0 = .raised e → e.cls = .typeErr →
      call_with_retry api maxRetries = (.reraised e, 1, [])) := by
  refine ⟨?_, ?_, ?_⟩
  · intro h
    obtain ⟨e, he, hres⟩ := retryGo_transient api maxRetries maxRetries 0 []
      (fun i h1 h2 => h i (by omega))
    refine ⟨e, by simpa using he, ?_⟩
    unfold call_with_retry
    rw [hres]
    simp
  · intro e he hcls
    unfold call_with_retry
    cases maxRetries with
    | zero => rcases hcls with h | h <;> simp [retryGo, he, h]
    | succ m => rcases hcls with h | h <;> simp [retryGo, he, h]
  · intro e he hcls
    unfold call_with_retry
    cases maxRetries with
    | zero => simp [retryGo, he, hcls]
    | succ m => simp [retryGo, he, hcls]

/-- Witness for C5: an API that always raises a rate-limit error, with
`max_retries = 2`: three attempts, backoffs `1, 2`, terminal failure
wrapping the error and reporting 3 attempts; plus single-attempt
surfacing of a permanent `APIError` and of a `TypeError`. -/
theorem C5_retry_policy_witness :
    (call_with_retry (ρ := Unit)
        (fun _ => .raised ⟨.rateLimit, "429"⟩) 2 =
      (.terminal 3 ⟨.rateLimit, "429"⟩, 3, [1, 2])) ∧
    (call_with_retry (ρ := Unit)
        (fun _ => .raised ⟨.apiError, "bad request"⟩) 3 =
      (.terminal 4 ⟨.apiError, "bad request"⟩, 1, [])) ∧
    (call_with_retry (ρ := Unit)
        (fun _ => .raised ⟨.typeErr, "unexpected kwarg"⟩) 3 =
      (.reraised ⟨.typeErr, "unexpected kwarg"⟩, 1, [])) := by
  refine ⟨?_, ?_, ?_⟩
  · obtain ⟨e, he, hres⟩ :=
      (C5_retry_policy (ρ := Unit) (fun _ => .raised ⟨.rateLimit, "429"⟩) 2).1
        (fun i _ => ⟨⟨.rateLimit, "429"⟩, rfl, rfl⟩)
    have he2 : e = ⟨.rateLimit, "429"⟩ := by
      simpa using he.symm
    rw [he2] at hres
    simpa using hres
  · exact (C5_retry_policy (ρ := Unit)
      (fun _ => .raised ⟨.apiError, "bad request"⟩) 3).2.1
      ⟨.apiError, "bad request"⟩ rfl (Or.inl rfl)
  · exact (C5_retry_policy (ρ := Unit)
      (fun _ => .raised ⟨.typeErr, "unexpected kwarg"⟩) 3).2.2
      ⟨.typeErr, "unexpected kwarg"⟩ rfl rfl

/-! ## String formatting helpers

`compute_cache_key` and the cell-trace paths interpolate Python values
into strings: `str(int)` (decimal rendering), `"_".join(...)` and
`"|".join(...)`. These are modelled exactly, and the injectivity facts
the cache-key claims need are proved about them. -/

theorem strExt {s t : String} (h : s.data = t.data) : s = t :=
  congrArg String.mk h

theorem strAppend_cancel_left {a b c : String} (h : a ++ b = a ++ c) : b = c := by
  apply strExt
  have hd : a.data ++ b.data = a.data ++ c.data := by
    rw [← String.data_append, ← String.data_append, h]
  exact List.append_cancel_left hd

theorem strAppend_cancel_right {a b c : String} (h : a ++ c = b ++ c) : a = b := by
  apply strExt
  have hd : a.data ++ c.data = b.data ++ c.data := by
    rw [← String.data_append, ← String.data_append, h]
  exact List.append_cancel_right hd

/-- Decimal digits of `n`, most significant first: Python `str(n)` for
a non-negative integer. -/
def natChars (n : Nat) : List Char :=
  if h : n < 10 then [Nat.digitChar n]
  else natChars (n / 10) ++ [Nat.digitChar (n % 10)]
termination_by n
decreasing_by exact Nat.div_lt_self (by omega) (by omega)

/-- Python `str(n)` for `n : Nat`. -/
def natStr (n : Nat) : String := ⟨natChars n⟩

/-- Python `str(n)` for `n : int`. -/
def intStr : Int → String
  | .ofNat n => natStr n
  | .negSucc n => "-" ++ natStr (n + 1)

theorem natChars_lt {n : Nat} (h : n < 10) : natChars n = [Nat.digitChar n] := by
  rw [natChars]
  simp [h]

theorem natChars_ge {n : Nat} (h : ¬ n < 10) :
    natChars n = natChars (n / 10) ++ [Nat.digitChar (n % 10)] := by
  rw [natChars]
  simp [h]

theorem natChars_ne_nil (n : Nat) : natChars n ≠ [] := by
  rw [natChars]
  split <;> simp

theorem digitChar_inj_lt : ∀ a, a < 10 → ∀ b, b < 10 →
    Nat.digitChar a = Nat.digitChar b → a = b := by decide

theorem digitChar_isDigit : ∀ d, d < 10 → (Nat.digitChar d).isDigit = true := by decide

theorem natChars_isDigit (n : Nat) : ∀ c ∈ natChars n, c.isDigit = true := by
  induction n using Nat.strong_induction_on with
  | _ n ih =>
    rw [natChars]
    split
    · intro c hc
      simp only [List.mem_singleton] at hc
      subst hc
      exact digitChar_isDigit n (by omega)
    · intro c hc
      rcases List.mem_append.mp hc with h | h
      · exact ih (n / 10) (Nat.div_lt_self (by omega) (by omega)) c h
      · simp only [List.mem_singleton] at h
        subst h
        exact digitChar_isDigit (n % 10) (Nat.mod_lt _ (by omega))

theorem natChars_inj (m : Nat) : ∀ n, natChars m = natChars n → m = n := by
  induction m using Nat.strong_induction_on with
  | _ m ih =>
    intro n h
    by_cases hm : m < 10 <;> by_cases hn : n < 10
    · rw [natChars_lt hm, natChars_lt hn] at h
      simp only [List.cons.injEq, and_true] at h
      exact digitChar_inj_lt m hm n hn h
    · rw [natChars_lt hm, natChars_ge hn] at h
      have hlen := congrArg List.length h
      have hpos : 0 < (natChars (n / 10)).length :=
        List.length_pos.mpr (natChars_ne_nil _)
      simp only [List.length_singleton, List.length_append] at hlen
      omega
    · rw [natChars_ge hm, natChars_lt hn] at h
      have hlen := congrArg List.length h
      have hpos : 0 < (natChars (m / 10)).length :=
        List.length_pos.mpr (natChars_ne_nil _)
      simp only [List.length_singleton, List.length_append] at hlen
      omega
    · rw [natChars_ge hm, natChars_ge hn] at h
      have h2 := List.concat_inj.mp (by
        simpa [List.concat_eq_append] using h)
      have hdiv : m / 10 = n / 10 :=
        ih (m / 10) (Nat.div_lt_self (by omega) (by omega)) (n / 10) h2.1
      have hmod : m % 10 = n % 10 :=
        digitChar_inj_lt _ (Nat.mod_lt _ (by omega)) _ (Nat.mod_lt _ (by omega)) h2.2
      omega

theorem natStr_inj {m n : Nat} (h : natStr m = natStr n) : m = n :=
  natChars_inj m n (congrArg String.data h)

theorem natChars_no_underscore (n : Nat) : ∀ c ∈ natChars n, c ≠ '_' := by
  intro c hc
  have := natChars_isDigit n c hc
  intro hdash
  subst hdash
  simp [Char.isDigit] at this

theorem intStr_inj {m n : Int} (h : intStr m = intStr n) : m = n := by
  have hneg : ∀ k j : Nat, natStr k ≠ "-" ++ natStr j := by
    intro k j hkj
    have hd := congrArg String.data hkj
    rw [String.data_append] at hd
    have hd2 : ("-" : String).data = ['-'] := rfl
    rw [hd2] at hd
    have hmem : '-' ∈ natChars k := by
      rw [show natChars k = (natStr k).data from rfl, hd]
      simp
    have := natChars_isDigit k '-' hmem
    simp [Char.isDigit] at this
  cases m with
  | ofNat a =>
    cases n with
    | ofNat b =>
      simp only [intStr] at h
      exact congrArg Int.ofNat (natStr_inj h)
    | negSucc b =>
      simp only [intStr] at h
      exact absurd h (hneg a (b + 1))
  | negSucc a =>
    cases n with
    | ofNat b =>
      simp only [intStr] at h
      exact absurd h.symm (hneg b (a + 1))
    | negSucc b =>
      simp only [intStr] at h
      have hab : a + 1 = b + 1 := natStr_inj (strAppend_cancel_left h)
      have : a = b := by omega
      rw [this]

/-- `"_".join(map(str, indices))` (caching.py line 85 and line 324). -/
def joinUnderscore : List Nat → String
  | [] => ""
  | [n] => natStr n
  | n :: m :: rest => natStr n ++ "_" ++ joinUnderscore (m :: rest)

theorem splitAtSep (sep : Char) :
    ∀ (a : List Char) (b t1 t2 : List Char), (∀ c ∈ a, c ≠ sep) → (∀ c ∈ b, c ≠ sep) →
      a ++ sep :: t1 = b ++ sep :: t2 → a = b ∧ t1 = t2 := by
  intro a
  induction a with
  | nil =>
    intro b t1 t2 _ha hb h
    cases b with
    | nil =>
      simp only [List.nil_append, List.cons.injEq, true_and] at h
      exact ⟨rfl, h⟩
    | cons x xs =>
      simp only [List.nil_append, List.cons_append, List.cons.injEq] at h
      exact absurd h.1.symm (hb x (List.mem_cons_self _ _))
  | cons x xs ih =>
    intro b t1 t2 ha hb h
    cases b with
    | nil =>
      simp only [List.cons_append, List.nil_append, List.cons.injEq] at h
      exact absurd h.1 (ha x (List.mem_cons_self _ _))
    | cons y ys =>
      simp only [List.cons_append, List.cons.injEq] at h
      obtain ⟨hxy, hrest⟩ := h
      have := ih ys t1 t2 (fun c hc => ha c (List.mem_cons_of_mem _ hc))
        (fun c hc => hb c (List.mem_cons_of_mem _ hc)) hrest
      exact ⟨by rw [hxy, this.1], this.2⟩

theorem joinUnderscore_inj : ∀ l1 l2 : List Nat,
    joinUnderscore l1 = joinUnderscore l2 → l1 = l2 := by
  intro l1
  induction l1 with
  | nil =>
    intro l2 h
    cases l2 with
    | nil => rfl
    | cons b bs =>
      cases bs with
      | nil =>
        exact absurd (congrArg String.data h.symm) (natChars_ne_nil b)
      | cons c cs =>
        exfalso
        have hd := congrArg String.data h.symm
        simp only [joinUnderscore, String.data_append] at hd
        have h1 := List.append_eq_nil.mp hd
        have h2 := List.append_eq_nil.mp h1.1
        exact natChars_ne_nil b h2.1
  | cons a as ih =>
    intro l2 h
    cases as with
    | nil =>
      cases l2 with
      | nil => exact absurd (congrArg String.data h) (natChars_ne_nil a)
      | cons b bs =>
        cases bs with
        | nil => rw [natStr_inj h]
        | cons c cs =>
          exfalso
          have hd := congrArg String.data h
          simp only [joinUnderscore, String.data_append] at hd
          have hmem : '_' ∈ (natStr a).data := by
            rw [hd]
            have : ("_" : String).data = ['_'] := rfl
            simp [this]
          exact natChars_no_underscore a '_' hmem rfl
    | cons a2 as2 =>
      cases l2 with
      | nil =>
        exfalso
        have hd := congrArg String.data h
        simp only [joinUnderscore, String.data_append] at hd
        have h1 := List.append_eq_nil.mp hd
        have h2 := List.append_eq_nil.mp h1.1
        exact natChars_ne_nil a h2.1
      | cons b bs =>
        cases bs with
        | nil =>
          exfalso
          have hd := congrArg String.data h
          simp only [joinUnderscore, String.data_append] at hd
          have hmem : '_' ∈ (natStr b).data := by
            rw [← hd]
            have : ("_" : String).data = ['_'] := rfl
            simp [this]
          exact natChars_no_underscore b '_' hmem rfl
        | cons b2 bs2 =>
          have hd := congrArg String.data h
          simp only [joinUnderscore, String.data_append] at hd
          simp only [List.append_assoc, List.singleton_append] at hd
          have hsplit := splitAtSep '_' (natStr a).data (natStr b).data _ _
            (natChars_no_underscore a) (natChars_no_underscore b) hd
          have ha : a = b := natStr_inj (strExt hsplit.1)
          have htail : joinUnderscore (a2 :: as2) = joinUnderscore (b2 :: bs2) :=
            strExt hsplit.2
          rw [ha, ih (b2 :: bs2) htail]

/-- `"|".join(cache_parts)` (caching.py line 109). -/
def joinBar : List String → String
  | [] => ""
  | [s] => s
  | s :: t :: rest => s ++ "|" ++ joinBar (t :: rest)

theorem joinBar_cons (s : String) (l : List String) (h : l ≠ []) :
    joinBar (s :: l) = s ++ "|" ++ joinBar l := by
  cases l with
  | nil => exact absurd rfl h
  | cons t rest => rfl

theorem joinBar_cancel : ∀ (pre : List String) (x y : String) (suf : List String),
    joinBar (pre ++ x :: suf) = joinBar (pre ++ y :: suf) → x = y := by
  intro pre
  induction pre with
  | nil =>
    intro x y suf h
    cases suf with
    | nil => exact h
    | cons t rest =>
      simp only [List.nil_append] at h
      rw [joinBar_cons x (t :: rest) (by simp), joinBar_cons y (t :: rest) (by simp)] at h
      exact strAppend_cancel_right (strAppend_cancel_right h)
  | cons p pre ih =>
    intro x y suf h
    simp only [List.cons_append] at h
    rw [joinBar_cons p (pre ++ x :: suf) (by simp),
      joinBar_cons p (pre ++ y :: suf) (by simp)] at h
    exact ih x y suf (strAppend_cancel_left h)

theorem joinBar_length_insert : ∀ (pre : List String) (comp : String) (suf : List String),
    pre ≠ [] → (joinBar (pre ++ comp :: suf)).length =
      (joinBar (pre ++ suf)).length + comp.length + 1 := by
  intro pre
  induction pre with
  | nil => intro comp suf h; exact absurd rfl h
  | cons p pre ih =>
    intro comp suf _h
    cases pre with
    | nil =>
      cases suf with
      | nil =>
        simp only [List.nil_append, List.singleton_append, joinBar,
          String.length_append]
        have : ("|" : String).length = 1 := rfl
        simp [this, joinBar]
        omega
      | cons s ss =>
        rw [List.singleton_append, List.singleton_append,
          joinBar_cons p (comp :: s :: ss) (by simp),
          joinBar_cons p (s :: ss) (by simp),
          joinBar_cons comp (s :: ss) (by simp)]
        simp only [String.length_append]
        have : ("|" : String).length = 1 := rfl
        omega
    | cons q pre2 =>
      simp only [List.cons_append]
      rw [joinBar_cons p (q :: (pre2 ++ comp :: suf)) (by simp),
        joinBar_cons p (q :: (pre2 ++ suf)) (by simp)]
      simp only [String.length_append]
      have := ih comp suf (by simp)
      simp only [List.cons_append] at this
      omega

theorem joinBar_ne_insert (pre : List String) (comp : String) (suf : List String)
    (hpre : pre ≠ []) : joinBar (pre ++ comp :: suf) ≠ joinBar (pre ++ suf) := by
  intro h
  have := joinBar_length_insert pre comp suf hpre
  rw [h] at this
  omega

/-! ## Cache fingerprint (`CellCache.compute_cache_key`, caching.py lines 48-110)

The source joins the key components with `"|"` and returns
`hashlib.sha256(cache_str.encode()).hexdigest()`. The SHA-256 digest is
a fixed function applied after the join; the spec's collision-resistance
requirement (§4.1) is exactly the requirement that distinct digest
inputs be treated as distinct fingerprints, so the model takes the
digest input string itself as the fingerprint: two fingerprints are
equal (resp. different) iff the joined strings are. Python's float
interpolation `f"temp_{temperature}"` is injective on floats, so the
sampling parameters enter the model as their formatted strings. -/

structure CacheKeyArgs where
  tensor_name : String
  indices : List Nat
  operands_hash : String
  lens_id : String
  snapshot_hash : String
  model : String
  temperatureStr : String
  topPStr : String
  kernel_hash : String
  lens_catalog_digest : String
  verbosity : Option String
  reasoning_effort : Option String
  max_tokens : Option Int

/-- `if verbosity: cache_parts.append(f"verbosity_{verbosity}")` —
Python truthiness: `None` and `""` contribute nothing. -/
def optStrParts (tag : String) : Option String → List String
  | some v => if v = "" then [] else [tag ++ v]
  | none => []

/-- `if max_tokens: cache_parts.append(f"max_tokens_{max_tokens}")` —
Python truthiness: `None` and `0` contribute nothing. -/
def optIntParts (tag : String) : Option Int → List String
  | some v => if v = 0 then [] else [tag ++ intStr v]
  | none => []

/-- `cache_parts` (caching.py lines 88-107): the ten core components in
source order, then the optional GPT-5 components. -/
def cacheParts (a : CacheKeyArgs) : List String :=
  [a.tensor_name, joinUnderscore a.indices, a.operands_hash, a.lens_id,
    a.snapshot_hash, a.kernel_hash, a.lens_catalog_digest, a.model,
    "temp_" ++ a.temperatureStr, "top_p_" ++ a.topPStr] ++
  optStrParts "verbosity_" a.verbosity ++
  optStrParts "reasoning_" a.reasoning_effort ++
  optIntParts "max_tokens_" a.max_tokens

/-- `CellCache.compute_cache_key`: the `"|"`-joined digest input (see
the section comment for the SHA-256 modelling). -/
def compute_cache_key (a : CacheKeyArgs) : String :=
  joinBar (cacheParts a)

/-- The thirteen arguments of `compute_cache_key`. -/
inductive KeyField where
  | tensorName
  | indices
  | operandsHash
  | lensId
  | snapshotHash
  | kernelHash
  | lensCatalogDigest
  | model
  | temperature
  | topP
  | verbosity
  | reasoningEffort
  | maxTokens
  deriving DecidableEq

/-- Agreement of two argument tuples at one named field. -/
def fieldEqAt : KeyField → CacheKeyArgs → CacheKeyArgs → Prop
  | .tensorName, a, b => a.tensor_name = b.tensor_name
  | .indices, a, b => a.indices = b.indices
  | .operandsHash, a, b => a.operands_hash = b.operands_hash
  | .lensId, a, b => a.lens_id = b.lens_id
  | .snapshotHash, a, b => a.snapshot_hash = b.snapshot_hash
  | .kernelHash, a, b => a.kernel_hash = b.kernel_hash
  | .lensCatalogDigest, a, b => a.lens_catalog_digest = b.lens_catalog_digest
  | .model, a, b => a.model = b.model
  | .temperature, a, b => a.temperatureStr = b.temperatureStr
  | .topP, a, b => a.topPStr = b.topPStr
  | .verbosity, a, b => a.verbosity = b.verbosity
  | .reasoningEffort, a, b => a.reasoning_effort = b.reasoning_effort
  | .maxTokens, a, b => a.max_tokens = b.max_tokens

/-- The two argument tuples differ in exactly one of the thirteen
fields. -/
def differsInExactlyOne (a b : CacheKeyArgs) : Prop :=
  ∃ F : KeyField, ¬ fieldEqAt F a b ∧ ∀ G : KeyField, G ≠ F → fieldEqAt G a b

/-- The optional fields avoid the Python-falsy values that the
truthiness tests of lines 102-107 silently drop: a verbosity or
reasoning-effort value, when present, is non-empty, and a max-tokens
value, when present, is non-zero. -/
def normalizedArgs (a : CacheKeyArgs) : Prop :=
  (∀ v, a.verbosity = some v → v ≠ "") ∧
  (∀ v, a.reasoning_effort = some v → v ≠ "") ∧
  (∀ n, a.max_tokens = some n → n ≠ 0)

theorem joinBar_ne_concat (pre : List String) (comp : String) (hpre : pre ≠ []) :
    joinBar (pre ++ [comp]) ≠ joinBar pre := by
  have := joinBar_length_insert pre comp [] hpre
  rw [List.append_nil] at this
  intro h
  rw [h] at this
  omega

/-- **C6 (amended).** `compute_cache_key` is deterministic, and under
the truthiness normalization of the optional fields it is sensitive to
every single-field difference: two argument tuples that differ in
exactly one of the thirteen fields produce different fingerprints. -/
theorem C6_cache_key_deterministic_sensitive (a b : CacheKeyArgs)
    (hna : normalizedArgs a) (hnb : normalizedArgs b) :
    (a = b → compute_cache_key a = compute_cache_key b) ∧
    (differsInExactlyOne a b → compute_cache_key a ≠ compute_cache_key b) := by
  constructor
  · intro h
    rw [h]
  · rintro ⟨F, hdiff, hagree⟩ hkey
    simp only [compute_cache_key, cacheParts, List.append_assoc,
      List.cons_append, List.nil_append, List.append_nil] at hkey
    cases F with
    | tensorName =>
      have h2 : a.indices = b.indices := hagree .indices (by decide)
      have h3 : a.operands_hash = b.operands_hash := hagree .operandsHash (by decide)
      have h4 : a.lens_id = b.lens_id := hagree .lensId (by decide)
      have h5 : a.snapshot_hash = b.snapshot_hash := hagree .snapshotHash (by decide)
      have h6 : a.kernel_hash = b.kernel_hash := hagree .kernelHash (by decide)
      have h7 : a.lens_catalog_digest = b.lens_catalog_digest :=
        hagree .lensCatalogDigest (by decide)
      have h8 : a.model = b.model := hagree .model (by decide)
      have h9 : a.temperatureStr = b.temperatureStr := hagree .temperature (by decide)
      have h10 : a.topPStr = b.topPStr := hagree .topP (by decide)
      have h11 : a.verbosity = b.verbosity := hagree .verbosity (by decide)
      have h12 : a.reasoning_effort = b.reasoning_effort :=
        hagree .reasoningEffort (by decide)
      have h13 : a.max_tokens = b.max_tokens := hagree .maxTokens (by decide)
      rw [← h2, ← h3, ← h4, ← h5, ← h6, ← h7, ← h8, ← h9, ← h10, ← h11, ← h12,
        ← h13] at hkey
      exact hdiff (joinBar_cancel [] _ _ _ hkey)
    | indices =>
      have h1 : a.tensor_name = b.tensor_name := hagree .tensorName (by decide)
      have h3 : a.operands_hash = b.operands_hash := hagree .operandsHash (by decide)
      have h4 : a.lens_id = b.lens_id := hagree .lensId (by decide)
      have h5 : a.snapshot_hash = b.snapshot_hash := hagree .snapshotHash (by decide)
      have h6 : a.kernel_hash = b.kernel_hash := hagree .kernelHash (by decide)
      have h7 : a.lens_catalog_digest = b.lens_catalog_digest :=
        hagree .lensCatalogDigest (by decide)
      have h8 : a.model = b.model := hagree .model (by decide)
      have h9 : a.temperatureStr = b.temperatureStr := hagree .temperature (by decide)
      have h10 : a.topPStr = b.topPStr := hagree .topP (by decide)
      have h11 : a.verbosity = b.verbosity := hagree .verbosity (by decide)
      have h12 : a.reasoning_effort = b.reasoning_effort :=
        hagree .reasoningEffort (by decide)
      have h13 : a.max_tokens = b.max_tokens := hagree .maxTokens (by decide)
      rw [← h1, ← h3, ← h4, ← h5, ← h6, ← h7, ← h8, ← h9, ← h10, ← h11, ← h12,
        ← h13] at hkey
      exact hdiff (joinUnderscore_inj _ _
        (joinBar_cancel [a.tensor_name] _ _ _ hkey))
    | operandsHash =>
      have h1 : a.tensor_name = b.tensor_name := hagree .tensorName (by decide)
      have h2 : a.indices = b.indices := hagree .indices (by decide)
      have h4 : a.lens_id = b.lens_id := hagree .lensId (by decide)
      have h5 : a.snapshot_hash = b.snapshot_hash := hagree .snapshotHash (by decide)
      have h6 : a.kernel_hash = b.kernel_hash := hagree .kernelHash (by decide)
      have h7 : a.lens_catalog_digest = b.lens_catalog_digest :=
        hagree .lensCatalogDigest (by decide)
      have h8 : a.model = b.model := hagree .model (by decide)
      have h9 : a.temperatureStr = b.temperatureStr := hagree .temperature (by decide)
      have h10 : a.topPStr = b.topPStr := hagree .topP (by decide)
      have h11 : a.verbosity = b.verbosity := hagree .verbosity (by decide)
      have h12 : a.reasoning_effort = b.reasoning_effort :=
        hagree .reasoningEffort (by decide)
      have h13 : a.max_tokens = b.max_tokens := hagree .maxTokens (by decide)
      rw [← h1, ← h2, ← h4, ← h5, ← h6, ← h7, ← h8, ← h9, ← h10, ← h11, ← h12,
        ← h13] at hkey
      exact hdiff
        (joinBar_cancel [a.tensor_name, joinUnderscore a.indices] _ _ _ hkey)
    | lensId =>
      have h1 : a.tensor_name = b.tensor_name := hagree .tensorName (by decide)
      have h2 : a.indices = b.indices := hagree .indices (by decide)
      have h3 : a.operands_hash = b.operands_hash := hagree .operandsHash (by decide)
      have h5 : a.snapshot_hash = b.snapshot_hash := hagree .snapshotHash (by decide)
      have h6 : a.kernel_hash = b.kernel_hash := hagree .kernelHash (by decide)
      have h7 : a.lens_catalog_digest = b.lens_catalog_digest :=
        hagree .lensCatalogDigest (by decide)
      have h8 : a.model = b.model := hagree .model (by decide)
      have h9 : a.temperatureStr = b.temperatureStr := hagree .temperature (by decide)
      have h10 : a.topPStr = b.topPStr := hagree .topP (by decide)
      have h11 : a.verbosity = b.verbosity := hagree .verbosity (by decide)
      have h12 : a.reasoning_effort = b.reasoning_effort :=
        hagree .reasoningEffort (by decide)
      have h13 : a.max_tokens = b.max_tokens := hagree .maxTokens (by decide)
      rw [← h1, ← h2, ← h3, ← h5, ← h6, ← h7, ← h8, ← h9, ← h10, ← h11, ← h12,
        ← h13] at hkey
      exact hdiff (joinBar_cancel
        [a.tensor_name, joinUnderscore a.indices, a.operands_hash] _ _ _ hkey)
    | snapshotHash =>
      have h1 : a.tensor_name = b.tensor_name := hagree .tensorName (by decide)
      have h2 : a.indices = b.indices := hagree .indices (by decide)
      have h3 : a.operands_hash = b.operands_hash := hagree .operandsHash (by decide)
      have h4 : a.lens_id = b.lens_id := hagree .lensId (by decide)
      have h6 : a.kernel_hash = b.kernel_hash := hagree .kernelHash (by decide)
      have h7 : a.lens_catalog_digest = b.lens_catalog_digest :=
        hagree .lensCatalogDigest (by decide)
      have h8 : a.model = b.model := hagree .model (by decide)
      have h9 : a.temperatureStr = b.temperatureStr := hagree .temperature (by decide)
      have h10 : a.topPStr = b.topPStr := hagree .topP (by decide)
      have h11 : a.verbosity = b.verbosity := hagree .verbosity (by decide)
      have h12 : a.reasoning_effort = b.reasoning_effort :=
        hagree .reasoningEffort (by decide)
      have h13 : a.max_tokens = b.max_tokens := hagree .maxTokens (by decide)
      rw [← h1, ← h2, ← h3, ← h4, ← h6, ← h7, ← h8, ← h9, ← h10, ← h11, ← h12,
        ← h13] at hkey
      exact hdiff (joinBar_cancel
        [a.tensor_name, joinUnderscore a.indices, a.operands_hash, a.lens_id]
        _ _ _ hkey)
    | kernelHash =>
      have h1 : a.tensor_name = b.tensor_name := hagree .tensorName (by decide)
      have h2 : a.indices = b.indices := hagree .indices (by decide)
      have h3 : a.operands_hash = b.operands_hash := hagree .operandsHash (by decide)
      have h4 : a.lens_id = b.lens_id := hagree .lensId (by decide)
      have h5 : a.snapshot_hash = b.snapshot_hash := hagree .snapshotHash (by decide)
      have h7 : a.lens_catalog_digest = b.lens_catalog_digest :=
        hagree .lensCatalogDigest (by decide)
      have h8 : a.model = b.model := hagree .model (by decide)
      have h9 : a.temperatureStr = b.temperatureStr := hagree .temperature (by decide)
      have h10 : a.topPStr = b.topPStr := hagree .topP (by decide)
      have h11 : a.verbosity = b.verbosity := hagree .verbosity (by decide)
      have h12 : a.reasoning_effort = b.reasoning_effort :=
        hagree .reasoningEffort (by decide)
      have h13 : a.max_tokens = b.max_tokens := hagree .maxTokens (by decide)
      rw [← h1, ← h2, ← h3, ← h4, ← h5, ← h7, ← h8, ← h9, ← h10, ← h11, ← h12,
        ← h13] at hkey
      exact hdiff (joinBar_cancel
        [a.tensor_name, joinUnderscore a.indices, a.operands_hash, a.lens_id,
          a.snapshot_hash] _ _ _ hkey)
    | lensCatalogDigest =>
      have h1 : a.tensor_name = b.tensor_name := hagree .tensorName (by decide)
      have h2 : a.indices = b.indices := hagree .indices (by decide)
      have h3 : a.operands_hash = b.operands_hash := hagree .operandsHash (by decide)
      have h4 : a.lens_id = b.lens_id := hagree .lensId (by decide)
      have h5 : a.snapshot_hash = b.snapshot_hash := hagree .snapshotHash (by decide)
      have h6 : a.kernel_hash = b.kernel_hash := hagree .kernelHash (by decide)
      have h8 : a.model = b.model := hagree .model (by decide)
      have h9 : a.temperatureStr = b.temperatureStr := hagree .temperature (by decide)
      have h10 : a.topPStr = b.topPStr := hagree .topP (by decide)
      have h11 : a.verbosity = b.verbosity := hagree .verbosity (by decide)
      have h12 : a.reasoning_effort = b.reasoning_effort :=
        hagree .reasoningEffort (by decide)
      have h13 : a.max_tokens = b.max_tokens := hagree .maxTokens (by decide)
      rw [← h1, ← h2, ← h3, ← h4, ← h5, ← h6, ← h8, ← h9, ← h10, ← h11, ← h12,
        ← h13] at hkey
      exact hdiff (joinBar_cancel
        [a.tensor_name, joinUnderscore a.indices, a.operands_hash, a.lens_id,
          a.snapshot_hash, a.kernel_hash] _ _ _ hkey)
    | model =>
      have h1 : a.tensor_name = b.tensor_name := hagree .tensorName (by decide)
      have h2 : a.indices = b.indices := hagree .indices (by decide)
      have h3 : a.operands_hash = b.operands_hash := hagree .operandsHash (by decide)
      have h4 : a.lens_id = b.lens_id := hagree .lensId (by decide)
      have h5 : a.snapshot_hash = b.snapshot_hash := hagree .snapshotHash (by decide)
      have h6 : a.kernel_hash = b.kernel_hash := hagree .kernelHash (by decide)
      have h7 : a.lens_catalog_digest = b.lens_catalog_digest :=
        hagree .lensCatalogDigest (by decide)
      have h9 : a.temperatureStr = b.temperatureStr := hagree .temperature (by decide)
      have h10 : a.topPStr = b.topPStr := hagree .topP (by decide)
      have h11 : a.verbosity = b.verbosity := hagree .verbosity (by decide)
      have h12 : a.reasoning_effort = b.reasoning_effort :=
        hagree .reasoningEffort (by decide)
      have h13 : a.max_tokens = b.max_tokens := hagree .maxTokens (by decide)
      rw [← h1, ← h2, ← h3, ← h4, ← h5, ← h6, ← h7, ← h9, ← h10, ← h11, ← h12,
        ← h13] at hkey
      exact hdiff (joinBar_cancel
        [a.tensor_name, joinUnderscore a.indices, a.operands_hash, a.lens_id,
          a.snapshot_hash, a.kernel_hash, a.lens_catalog_digest] _ _ _ hkey)
    | temperature =>
      have h1 : a.tensor_name = b.tensor_name := hagree .tensorName (by decide)
      have h2 : a.indices = b.indices := hagree .indices (by decide)
      have h3 : a.operands_hash = b.operands_hash := hagree .operandsHash (by decide)
      have h4 : a.lens_id = b.lens_id := hagree .lensId (by decide)
      have h5 : a.snapshot_hash = b.snapshot_hash := hagree .snapshotHash (by decide)
      have h6 : a.kernel_hash = b.kernel_hash := hagree .kernelHash (by decide)
      have h7 : a.lens_catalog_digest = b.lens_catalog_digest :=
        hagree .lensCatalogDigest (by decide)
      have h8 : a.model = b.model := hagree .model (by decide)
      have h10 : a.topPStr = b.topPStr := hagree .topP (by decide)
      have h11 : a.verbosity = b.verbosity := hagree .verbosity (by decide)
      have h12 : a.reasoning_effort = b.reasoning_effort :=
        hagree .reasoningEffort (by decide)
      have h13 : a.max_tokens = b.max_tokens := hagree .maxTokens (by decide)
      rw [← h1, ← h2, ← h3, ← h4, ← h5, ← h6, ← h7, ← h8, ← h10, ← h11, ← h12,
        ← h13] at hkey
      exact hdiff (strAppend_cancel_left (joinBar_cancel
        [a.tensor_name, joinUnderscore a.indices, a.operands_hash, a.lens_id,
          a.snapshot_hash, a.kernel_hash, a.lens_catalog_digest, a.model]
        _ _ _ hkey))
    | topP =>
      have h1 : a.tensor_name = b.tensor_name := hagree .tensorName (by decide)
      have h2 : a.indices = b.indices := hagree .indices (by decide)
      have h3 : a.operands_hash = b.operands_hash := hagree .operandsHash (by decide)
      have h4 : a.lens_id = b.lens_id := hagree .lensId (by decide)
      have h5 : a.snapshot_hash = b.snapshot_hash := hagree .snapshotHash (by decide)
      have h6 : a.kernel_hash = b.kernel_hash := hagree .kernelHash (by decide)
      have h7 : a.lens_catalog_digest = b.lens_catalog_digest :=
        hagree .lensCatalogDigest (by decide)
      have h8 : a.model = b.model := hagree .model (by decide)
      have h9 : a.temperatureStr = b.temperatureStr := hagree .temperature (by decide)
      have h11 : a.verbosity = b.verbosity := hagree .verbosity (by decide)
      have h12 : a.reasoning_effort = b.reasoning_effort :=
        hagree .reasoningEffort (by decide)
      have h13 : a.max_tokens = b.max_tokens := hagree .maxTokens (by decide)
      rw [← h1, ← h2, ← h3, ← h4, ← h5, ← h6, ← h7, ← h8, ← h9, ← h11, ← h12,
        ← h13] at hkey
      exact hdiff (strAppend_cancel_left (joinBar_cancel
        [a.tensor_name, joinUnderscore a.indices, a.operands_hash, a.lens_id,
          a.snapshot_hash, a.kernel_hash, a.lens_catalog_digest, a.model,
          "temp_" ++ a.temperatureStr] _ _ _ hkey))
    | verbosity =>
      have h1 : a.tensor_name = b.tensor_name := hagree .tensorName (by decide)
      have h2 : a.indices = b.indices := hagree .indices (by decide)
      have h3 : a.operands_hash = b.operands_hash := hagree .operandsHash (by decide)
      have h4 : a.lens_id = b.lens_id := hagree .lensId (by decide)
      have h5 : a.snapshot_hash = b.snapshot_hash := hagree .snapshotHash (by decide)
      have h6 : a.kernel_hash = b.kernel_hash := hagree .kernelHash (by decide)
      have h7 : a.lens_catalog_digest = b.lens_catalog_digest :=
        hagree .lensCatalogDigest (by decide)
      have h8 : a.model = b.model := hagree .model (by decide)
      have h9 : a.temperatureStr = b.temperatureStr := hagree .temperature (by decide)
      have h10 : a.topPStr = b.topPStr := hagree .topP (by decide)
      have h12 : a.reasoning_effort = b.reasoning_effort :=
        hagree .reasoningEffort (by decide)
      have h13 : a.max_tokens = b.max_tokens := hagree .maxTokens (by decide)
      rw [← h1, ← h2, ← h3, ← h4, ← h5, ← h6, ← h7, ← h8, ← h9, ← h10, ← h12,
        ← h13] at hkey
      cases hva : a.verbosity with
      | none =>
        cases hvb : b.verbosity with
        | none =>
          exact hdiff (show a.verbosity = b.verbosity by rw [hva, hvb])
        | some vb =>
          have hvb2 : vb ≠ "" := hnb.1 vb hvb
          rw [hva, hvb] at hkey
          simp only [optStrParts, if_neg hvb2, List.cons_append,
            List.nil_append] at hkey
          exact joinBar_ne_insert
            [a.tensor_name, joinUnderscore a.indices, a.operands_hash, a.lens_id,
              a.snapshot_hash, a.kernel_hash, a.lens_catalog_digest, a.model,
              "temp_" ++ a.temperatureStr, "top_p_" ++ a.topPStr]
            ("verbosity_" ++ vb)
            (optStrParts "reasoning_" a.reasoning_effort ++
              optIntParts "max_tokens_" a.max_tokens) (by simp) hkey.symm
      | some va =>
        have hva2 : va ≠ "" := hna.1 va hva
        cases hvb : b.verbosity with
        | none =>
          rw [hva, hvb] at hkey
          simp only [optStrParts, if_neg hva2, List.cons_append,
            List.nil_append] at hkey
          exact joinBar_ne_insert
            [a.tensor_name, joinUnderscore a.indices, a.operands_hash, a.lens_id,
              a.snapshot_hash, a.kernel_hash, a.lens_catalog_digest, a.model,
              "temp_" ++ a.temperatureStr, "top_p_" ++ a.topPStr]
            ("verbosity_" ++ va)
            (optStrParts "reasoning_" a.reasoning_effort ++
              optIntParts "max_tokens_" a.max_tokens) (by simp) hkey
        | some vb =>
          have hvb2 : vb ≠ "" := hnb.1 vb hvb
          rw [hva, hvb] at hkey
          simp only [optStrParts, if_neg hva2, if_neg hvb2, List.cons_append,
            List.nil_append] at hkey
          have := strAppend_cancel_left (joinBar_cancel
            [a.tensor_name, joinUnderscore a.indices, a.operands_hash, a.lens_id,
              a.snapshot_hash, a.kernel_hash, a.lens_catalog_digest, a.model,
              "temp_" ++ a.temperatureStr, "top_p_" ++ a.topPStr] _ _ _ hkey)
          exact hdiff (show a.verbosity = b.verbosity by rw [hva, hvb, this])
    | reasoningEffort =>
      have h1 : a.tensor_name = b.tensor_name := hagree .tensorName (by decide)
      have h2 : a.indices = b.indices := hagree .indices (by decide)
      have h3 : a.operands_hash = b.operands_hash := hagree .operandsHash (by decide)
      have h4 : a.lens_id = b.lens_id := hagree .lensId (by decide)
      have h5 : a.snapshot_hash = b.snapshot_hash := hagree .snapshotHash (by decide)
      have h6 : a.kernel_hash = b.kernel_hash := hagree .kernelHash (by decide)
      have h7 : a.lens_catalog_digest = b.lens_catalog_digest :=
        hagree .lensCatalogDigest (by decide)
      have h8 : a.model = b.model := hagree .model (by decide)
      have h9 : a.temperatureStr = b.temperatureStr := hagree .temperature (by decide)
      have h10 : a.topPStr = b.topPStr := hagree .topP (by decide)
      have h11 : a.verbosity = b.verbosity := hagree .verbosity (by decide)
      have h13 : a.max_tokens = b.max_tokens := hagree .maxTokens (by decide)
      rw [← h1, ← h2, ← h3, ← h4, ← h5, ← h6, ← h7, ← h8, ← h9, ← h10, ← h11,
        ← h13] at hkey
      cases hra : a.reasoning_effort with
      | none =>
        cases hrb : b.reasoning_effort with
        | none =>
          exact hdiff (show a.reasoning_effort = b.reasoning_effort by
            rw [hra, hrb])
        | some rb =>
          have hrb2 : rb ≠ "" := hnb.2.1 rb hrb
          rw [hra, hrb] at hkey
          simp only [optStrParts, if_neg hrb2, List.cons_append,
            List.nil_append] at hkey
          exact joinBar_ne_insert
            ([a.tensor_name, joinUnderscore a.indices, a.operands_hash, a.lens_id,
              a.snapshot_hash, a.kernel_hash, a.lens_catalog_digest, a.model,
              "temp_" ++ a.temperatureStr, "top_p_" ++ a.topPStr] ++
              optStrParts "verbosity_" a.verbosity)
            ("reasoning_" ++ rb) (optIntParts "max_tokens_" a.max_tokens)
            (by simp) hkey.symm
      | some ra =>
        have hra2 : ra ≠ "" := hna.2.1 ra hra
        cases hrb : b.reasoning_effort with
        | none =>
          rw [hra, hrb] at hkey
          simp only [optStrParts, if_neg hra2, List.cons_append,
            List.nil_append] at hkey
          exact joinBar_ne_insert
            ([a.tensor_name, joinUnderscore a.indices, a.operands_hash, a.lens_id,
              a.snapshot_hash, a.kernel_hash, a.lens_catalog_digest, a.model,
              "temp_" ++ a.temperatureStr, "top_p_" ++ a.topPStr] ++
              optStrParts "verbosity_" a.verbosity)
            ("reasoning_" ++ ra) (optIntParts "max_tokens_" a.max_tokens)
            (by simp) hkey
        | some rb =>
          have hrb2 : rb ≠ "" := hnb.2.1 rb hrb
          rw [hra, hrb] at hkey
          simp only [optStrParts, if_neg hra2, if_neg hrb2, List.cons_append,
            List.nil_append] at hkey
          have := strAppend_cancel_left (joinBar_cancel
            ([a.tensor_name, joinUnderscore a.indices, a.operands_hash, a.lens_id,
              a.snapshot_hash, a.kernel_hash, a.lens_catalog_digest, a.model,
              "temp_" ++ a.temperatureStr, "top_p_" ++ a.topPStr] ++
              optStrParts "verbosity_" a.verbosity) _ _ _ hkey)
          exact hdiff (show a.reasoning_effort = b.reasoning_effort by
            rw [hra, hrb, this])
    | maxTokens =>
      have h1 : a.tensor_name = b.tensor_name := hagree .tensorName (by decide)
      have h2 : a.indices = b.indices := hagree .indices (by decide)
      have h3 : a.operands_hash = b.operands_hash := hagree .operandsHash (by decide)
      have h4 : a.lens_id = b.lens_id := hagree .lensId (by decide)
      have h5 : a.snapshot_hash = b.snapshot_hash := hagree .snapshotHash (by decide)
      have h6 : a.kernel_hash = b.kernel_hash := hagree .kernelHash (by decide)
      have h7 : a.lens_catalog_digest = b.lens_catalog_digest :=
        hagree .lensCatalogDigest (by decide)
      have h8 : a.model = b.model := hagree .model (by decide)
      have h9 : a.temperatureStr = b.temperatureStr := hagree .temperature (by decide)
      have h10 : a.topPStr = b.topPStr := hagree .topP (by decide)
      have h11 : a.verbosity = b.verbosity := hagree .verbosity (by decide)
      have h12 : a.reasoning_effort = b.reasoning_effort :=
        hagree .reasoningEffort (by decide)
      rw [← h1, ← h2, ← h3, ← h4, ← h5, ← h6, ← h7, ← h8, ← h9, ← h10, ← h11,
        ← h12] at hkey
      cases hma : a.max_tokens with
      | none =>
        cases hmb : b.max_tokens with
        | none =>
          exact hdiff (show a.max_tokens = b.max_tokens by rw [hma, hmb])
        | some mb =>
          have hmb2 : mb ≠ 0 := hnb.2.2 mb hmb
          rw [hma, hmb] at hkey
          simp only [optIntParts, if_neg hmb2, List.append_nil] at hkey
          simp only [← List.append_assoc] at hkey
          exact joinBar_ne_concat
            (([a.tensor_name, joinUnderscore a.indices, a.operands_hash,
                a.lens_id, a.snapshot_hash, a.kernel_hash,
                a.lens_catalog_digest, a.model, "temp_" ++ a.temperatureStr,
                "top_p_" ++ a.topPStr] ++
              optStrParts "verbosity_" a.verbosity) ++
              optStrParts "reasoning_" a.reasoning_effort)
            ("max_tokens_" ++ intStr mb) (by simp) hkey.symm
      | some ma =>
        have hma2 : ma ≠ 0 := hna.2.2 ma hma
        cases hmb : b.max_tokens with
        | none =>
          rw [hma, hmb] at hkey
          simp only [optIntParts, if_neg hma2, List.append_nil] at hkey
          simp only [← List.append_assoc] at hkey
          exact joinBar_ne_concat
            (([a.tensor_name, joinUnderscore a.indices, a.operands_hash,
                a.lens_id, a.snapshot_hash, a.kernel_hash,
                a.lens_catalog_digest, a.model, "temp_" ++ a.temperatureStr,
                "top_p_" ++ a.topPStr] ++
              optStrParts "verbosity_" a.verbosity) ++
              optStrParts "reasoning_" a.reasoning_effort)
            ("max_tokens_" ++ intStr ma) (by simp) hkey
        | some mb =>
          have hmb2 : mb ≠ 0 := hnb.2.2 mb hmb
          rw [hma, hmb] at hkey
          simp only [optIntParts, if_neg hma2, if_neg hmb2] at hkey
          simp only [← List.append_assoc] at hkey
          have := intStr_inj (strAppend_cancel_left (joinBar_cancel
            (([a.tensor_name, joinUnderscore a.indices, a.operands_hash,
                a.lens_id, a.snapshot_hash, a.kernel_hash,
                a.lens_catalog_digest, a.model, "temp_" ++ a.temperatureStr,
                "top_p_" ++ a.topPStr] ++
              optStrParts "verbosity_" a.verbosity) ++
              optStrParts "reasoning_" a.reasoning_effort) _ _ _ hkey))
          exact hdiff (show a.max_tokens = b.max_tokens by rw [hma, hmb, this])

/-- **C6 (counterexample).** Two argument tuples that differ in exactly
one field — `max_tokens = None` versus `max_tokens = 0` — yield the
same fingerprint, because the Python truthiness test
`if max_tokens:` drops a zero value exactly like an absent one. -/
theorem C6_cache_key_counterexample :
    differsInExactlyOne
      ⟨"M", [0, 0], "oph", "lens:1", "snap", "gpt-5", "0.2", "0.9", "kern",
        "cat", none, none, none⟩
      ⟨"M", [0, 0], "oph", "lens:1", "snap", "gpt-5", "0.2", "0.9", "kern",
        "cat", none, none, some 0⟩ ∧
    compute_cache_key
      ⟨"M", [0, 0], "oph", "lens:1", "snap", "gpt-5", "0.2", "0.9", "kern",
        "cat", none, none, none⟩ =
    compute_cache_key
      ⟨"M", [0, 0], "oph", "lens:1", "snap", "gpt-5", "0.2", "0.9", "kern",
        "cat", none, none, some 0⟩ := by
  constructor
  · refine ⟨.maxTokens, by simp [fieldEqAt], ?_⟩
    intro G hG
    cases G <;> first | rfl | exact absurd rfl hG
  · rfl

/-- Witness for the amended C6: two normalized tuples differing only in
the tensor name get different fingerprints. -/
theorem C6_cache_key_deterministic_sensitive_witness :
    compute_cache_key
      ⟨"M", [0, 0], "oph", "lens:1", "snap", "gpt-5", "0.2", "0.9", "kern",
        "cat", none, none, none⟩ ≠
    compute_cache_key
      ⟨"W", [0, 0], "oph", "lens:1", "snap", "gpt-5", "0.2", "0.9", "kern",
        "cat", none, none, none⟩ := by
  have h := C6_cache_key_deterministic_sensitive
    ⟨"M", [0, 0], "oph", "lens:1", "snap", "gpt-5", "0.2", "0.9", "kern",
      "cat", none, none, none⟩
    ⟨"W", [0, 0], "oph", "lens:1", "snap", "gpt-5", "0.2", "0.9", "kern",
      "cat", none, none, none⟩
    (by refine ⟨?_, ?_, ?_⟩ <;> intro x hx <;> cases hx)
    (by refine ⟨?_, ?_, ?_⟩ <;> intro x hx <;> cases hx)
  refine h.2 ⟨.tensorName, by simp [fieldEqAt], ?_⟩
  intro G hG
  cases G <;> first | rfl | exact absurd rfl hG

/-! ## ResumableRunner (`chirality/infrastructure/caching.py`, class `ResumableRunner`)

State of the artifacts directory: the `cell_traces/<tensor>/<key>.json`
tree as a list of `(tensor_name, cell_key, file content)` entries, and
the `run_manifest.json` file (absent, corrupt, or a parsed manifest).
The manifest file is always written by `save_manifest`, so its parsed
form is the typed record below rather than raw JSON. -/

structure TensorProgress where
  cells_completed : Int
  total_cells : Int
  progress : ℚ
  deriving DecidableEq

structure Manifest where
  run_id : Option String
  timestamp : Option ℚ
  phase1_complete : Bool
  phase2_complete : Bool
  snapshot_hash : Option String
  model : Option String
  cells_planned : Int
  cells_completed : Int
  tensors : AList TensorProgress
  deriving DecidableEq

/-- The fresh manifest created by `load_manifest` (caching.py lines
246-257) when the file is missing or unreadable. -/
def emptyManifest : Manifest :=
  ⟨none, none, false, false, none, none, 0, 0, []⟩

structure ResumState where
  cells : List (String × String × FileContent Json)
  manifest : Option (FileContent Manifest)

/-- `ResumableRunner.load_manifest` (caching.py lines 237-257): parse
the manifest file; on a missing or corrupt file fall through to a fresh
empty manifest. -/
def load_manifest (st : ResumState) : Manifest :=
  match st.manifest with
  | some (.good m) => m
  | _ => emptyManifest

/-- `ResumableRunner.save_manifest`, content-level view (the
temp-file/fsync/rename discipline is modelled separately by
`saveManifestOps`): afterwards the manifest file holds `m`. -/
def save_manifest (st : ResumState) (m : Manifest) : ResumState :=
  { st with manifest := some (.good m) }

/-- First cell-trace file of tensor `name` with key `key`. -/
def findCell : List (String × String × FileContent Json) → String → String →
    Option (FileContent Json)
  | [], _, _ => none
  | (t, k, c) :: rest, name, key =>
    if t = name ∧ k = key then some c else findCell rest name key

/-- Delete the cell-trace file of tensor `name` with key `key`. -/
def removeCell : List (String × String × FileContent Json) → String → String →
    List (String × String × FileContent Json)
  | [], _, _ => []
  | (t, k, c) :: rest, name, key =>
    if t = name ∧ k = key then rest else (t, k, c) :: removeCell rest name key

/-- Write (or overwrite) the cell-trace file of tensor `name`, key `key`. -/
def insertCell (cells : List (String × String × FileContent Json))
    (name key : String) (content : FileContent Json) :
    List (String × String × FileContent Json) :=
  match cells with
  | [] => [(name, key, content)]
  | (t, k, c) :: rest =>
    if t = name ∧ k = key then (t, k, content) :: rest
    else (t, k, c) :: insertCell rest name key content

/-- `ResumableRunner.get_completed_cells` (caching.py lines 277-310):
scan the tensor's trace directory, include the stem of every file that
parses, and unlink every corrupt file. Returns the completed keys and
the state after the cleanup. -/
def get_completed_cells (st : ResumState) (name : String) :
    List String × ResumState :=
  (st.cells.filterMap (fun e =>
      if e.1 = name then
        match e.2.2 with
        | .good _ => some e.2.1
        | .corrupt => none
      else none),
    { st with cells := st.cells.filter (fun e =>
        !(e.1 == name && e.2.2.isCorrupt)) })

/-- The serialized cell record of `save_cell_result` (caching.py lines
344-349): `{tensor_name, indices, timestamp, result}`. -/
def cellRecord (name : String) (indices : List Nat) (ts : ℚ) (result : Json) : Json :=
  .obj [("tensor_name", .str name),
    ("indices", .arr (indices.map (fun i => .num i))),
    ("timestamp", .num ts),
    ("result", result)]

/-- `ResumableRunner.save_cell_result`, content-level view (the atomic
write discipline is modelled by `saveCellResultOps`): afterwards the
cell file holds the record. -/
def save_cell_result (st : ResumState) (name : String) (indices : List Nat)
    (ts : ℚ) (result : Json) : ResumState :=
  { st with cells :=
      insertCell st.cells name (joinUnderscore indices) (.good (cellRecord name indices ts result)) }

/-- `ResumableRunner.load_cell_result` (caching.py lines 363-391): read
the cell file; a parsed record yields `cell_data.get("result")`; a
corrupt file is unlinked and yields `None`. -/
def load_cell_result (st : ResumState) (name : String) (indices : List Nat) :
    Option Json × ResumState :=
  let key := joinUnderscore indices
  match findCell st.cells name key with
  | some (.good j) => (j.getField "result", st)
  | some .corrupt => (none, { st with cells := removeCell st.cells name key })
  | none => (none, st)

/-- `ResumableRunner.update_progress` (caching.py lines 393-425):
reload the manifest, overwrite this tensor's progress entry, recompute
the run-wide totals over all recorded tensors, set `phase2_complete`
once the totals say every planned cell is completed (the flag is only
ever set, never cleared), and persist the manifest. -/
def update_progress (st : ResumState) (name : String)
    (cells_completed total_cells : Int) : ResumState :=
  let m := load_manifest st
  let prog : TensorProgress :=
    ⟨cells_completed, total_cells,
      if 0 < total_cells then (cells_completed : ℚ) / (total_cells : ℚ) else 0⟩
  let tensors := insertA m.tensors name prog
  let totalCompleted : Int := (tensors.map (fun e => e.2.cells_completed)).sum
  let totalPlanned : Int := (tensors.map (fun e => e.2.total_cells)).sum
  let complete :=
    if 0 < totalPlanned ∧ totalPlanned ≤ totalCompleted then true
    else m.phase2_complete
  save_manifest st
    { m with
        tensors := tensors
        cells_completed := totalCompleted
        cells_planned := totalPlanned
        phase2_complete := complete }

/-- **C8.** Corrupt persisted state is recovered locally, never
surfaced as an error: (i) `CellCache.get` on a corrupt cache file (not
shadowed by the memory tier) deletes it and returns `None`; (ii)
`load_cell_result` on a corrupt cell file deletes it and returns
`None`; (iii) `get_completed_cells` excludes the key of a corrupt cell
file (one not shadowed by an earlier parseable file of the same key)
and drops the file from the store; (iv) `load_manifest` on a missing or
corrupt manifest returns the fresh empty manifest. All four operations
are total — corruption cannot propagate as a run failure. -/
theorem C8_corruption_recovered (cs : CellCacheState) (key : String)
    (rst : ResumState) (name : String) (indices : List Nat)
    (hen : cs.enabled = true)
    (hmem : lookupA cs.memoryCache key = none)
    (hdisk : lookupA cs.disk key = some .corrupt)
    (hcell : findCell rst.cells name (joinUnderscore indices) = some .corrupt)
    (hnogood : ∀ e ∈ rst.cells, e.1 = name → e.2.1 = joinUnderscore indices →
      e.2.2.isCorrupt = true)
    (hman : rst.manifest = some .corrupt ∨ rst.manifest = none) :
    CellCache.get cs key = (none, { cs with disk := eraseA cs.disk key }) ∧
    load_cell_result rst name indices =
      (none, { rst with cells := removeCell rst.cells name (joinUnderscore indices) }) ∧
    joinUnderscore indices ∉ (get_completed_cells rst name).1 ∧
    (∀ e ∈ (get_completed_cells rst name).2.cells,
      e.1 = name → e.2.2.isCorrupt = false) ∧
    load_manifest rst = emptyManifest := by
  refine ⟨?_, ?_, ?_, ?_, ?_⟩
  · unfold CellCache.get
    simp [hen, hmem, hdisk]
  · unfold load_cell_result
    simp [hcell]
  · simp only [get_completed_cells, List.mem_filterMap]
    rintro ⟨e, he, hsome⟩
    by_cases h1 : e.1 = name
    · rw [if_pos h1] at hsome
      cases h2 : e.2.2 with
      | good j =>
        have := hnogood e he h1 (by
          rw [h2] at hsome
          simpa using hsome)
        rw [h2] at this
        simp [FileContent.isCorrupt] at this
      | corrupt =>
        rw [h2] at hsome
        simp at hsome
    · rw [if_neg h1] at hsome
      simp at hsome
  · intro e he h1
    simp only [get_completed_cells, List.mem_filter] at he
    have := he.2
    rw [h1] at this
    simpa using this
  · unfold load_manifest
    rcases hman with h | h <;> rw [h]

/-- Witness for C8 on a concrete corrupt store. -/
theorem C8_corruption_recovered_witness :
    CellCache.get ⟨true, [], [("fp", .corrupt)]⟩ "fp" =
      (none, { CellCacheState.mk true [] [("fp", .corrupt)] with
        disk := eraseA [("fp", .corrupt)] "fp" }) ∧
    load_cell_result ⟨[("M", joinUnderscore [0, 1], .corrupt)], some .corrupt⟩ "M" [0, 1] =
      (none, { ResumState.mk [("M", joinUnderscore [0, 1], .corrupt)] (some .corrupt) with
        cells := removeCell [("M", joinUnderscore [0, 1], .corrupt)] "M"
          (joinUnderscore [0, 1]) }) ∧
    joinUnderscore [0, 1] ∉
      (get_completed_cells ⟨[("M", joinUnderscore [0, 1], .corrupt)], some .corrupt⟩ "M").1 ∧
    (∀ e ∈ (get_completed_cells
        ⟨[("M", joinUnderscore [0, 1], .corrupt)], some .corrupt⟩ "M").2.cells,
      e.1 = "M" → e.2.2.isCorrupt = false) ∧
    load_manifest ⟨[("M", joinUnderscore [0, 1], .corrupt)], some .corrupt⟩ = emptyManifest := by
  have h := C8_corruption_recovered ⟨true, [], [("fp", .corrupt)]⟩ "fp"
    ⟨[("M", joinUnderscore [0, 1], .corrupt)], some .corrupt⟩ "M" [0, 1] rfl rfl
    (by simp [lookupA])
    (by simp [findCell])
    (by
      intro e he h1 h2
      simp only [List.mem_singleton] at he
      rw [he]
      rfl)
    (Or.inl rfl)
  exact h

theorem if_and_or_decide (p q : Prop) [Decidable p] [Decidable q] (b : Bool) :
    (if p ∧ q then true else b) = (b || (decide p && decide q)) := by
  by_cases hp : p <;> by_cases hq : q <;> simp [hp, hq]

/-- **C9 (amended).** After any `update_progress` call the persisted
manifest's aggregate `cells_completed` and `cells_planned` equal the
sums of the per-tensor values recorded so far, and the run-complete
flag equals: (it was already set) OR (the aggregate planned total is
positive and the aggregate completed total has reached it). The flag
test is on the aggregate sums, not per tensor, and the flag is sticky. -/
theorem C9_update_progress_aggregates (st : ResumState) (name : String)
    (completed total : Int) :
    (load_manifest (update_progress st name completed total)).cells_completed =
      (((load_manifest (update_progress st name completed total)).tensors.map
        (fun e => e.2.cells_completed)).sum) ∧
    (load_manifest (update_progress st name completed total)).cells_planned =
      (((load_manifest (update_progress st name completed total)).tensors.map
        (fun e => e.2.total_cells)).sum) ∧
    (load_manifest (update_progress st name completed total)).phase2_complete =
      ((load_manifest st).phase2_complete ||
        ((decide (0 < (load_manifest (update_progress st name completed total)).cells_planned)) &&
          (decide ((load_manifest (update_progress st name completed total)).cells_planned ≤
            (load_manifest (update_progress st name completed total)).cells_completed)))) := by
  refine ⟨rfl, rfl, ?_⟩
  exact if_and_or_decide _ _ _

/-- Witness for the amended C9 at a concrete call. -/
theorem C9_update_progress_aggregates_witness :
    (load_manifest (update_progress ⟨[], none⟩ "A" 2 1)).cells_completed =
      (((load_manifest (update_progress ⟨[], none⟩ "A" 2 1)).tensors.map
        (fun e => e.2.cells_completed)).sum) ∧
    (load_manifest (update_progress ⟨[], none⟩ "A" 2 1)).cells_planned =
      (((load_manifest (update_progress ⟨[], none⟩ "A" 2 1)).tensors.map
        (fun e => e.2.total_cells)).sum) ∧
    (load_manifest (update_progress ⟨[], none⟩ "A" 2 1)).phase2_complete =
      ((load_manifest (⟨[], none⟩ : ResumState)).phase2_complete ||
        ((decide (0 < (load_manifest (update_progress ⟨[], none⟩ "A" 2 1)).cells_planned)) &&
          (decide ((load_manifest (update_progress ⟨[], none⟩ "A" 2 1)).cells_planned ≤
            (load_manifest (update_progress ⟨[], none⟩ "A" 2 1)).cells_completed)))) :=
  C9_update_progress_aggregates ⟨[], none⟩ "A" 2 1

/-- **C9 (counterexample).** The claim's "when, and only when, every
tensor has reached its planned count" fails: over-completion of one
tensor compensates for another. Starting from an empty store, recording
tensor `A` with 2 completed of 1 planned and tensor `B` with 0 of 1
sets the run-complete flag even though `B` has not reached its planned
count. -/
theorem C9_update_progress_counterexample :
    (load_manifest
      (update_progress (update_progress ⟨[], none⟩ "A" 2 1) "B" 0 1)).phase2_complete = true ∧
    lookupA (load_manifest
      (update_progress (update_progress ⟨[], none⟩ "A" 2 1) "B" 0 1)).tensors "B" =
      some ⟨0, 1, 0⟩ ∧
    (0 : Int) < 1 := by
  refine ⟨rfl, ?_, by decide⟩
  simp only [update_progress, load_manifest, save_manifest, emptyManifest]
  norm_num [insertA, lookupA]
  decide

/-! ## Atomic write discipline
(`ResumableRunner.save_manifest`, caching.py lines 259-275, and
`ResumableRunner.save_cell_result`, lines 327-361)

Both writers emit the same three primitive filesystem operations:
write the serialized record to a `tempfile.NamedTemporaryFile` in the
destination directory (prefix `.<final name>_`, suffix `.tmp`, random
middle part), `os.fsync` it, then `os.replace` it over the canonical
path. A directory is a map from path to parsed file content; a crash
interrupting the `write` can leave arbitrary partial bytes, but only
ever at the temporary path, which is distinct from the canonical path —
so the canonical path is governed entirely by the prefix of operations
applied before the crash. -/

inductive FsOp (α : Type) where
  | write (path : String) (content : α)
  | fsyncFile (path : String)
  | rename (src dst : String)

/-- Apply one primitive operation to a directory. `fsync` forces the
already-written temp file to stable storage and does not change the
name-to-content map; `os.replace` atomically moves `src` over `dst`
(its source always exists in the sequences below). -/
def applyOp {α : Type} (fs : AList α) : FsOp α → AList α
  | .write p c => insertA fs p c
  | .fsyncFile _ => fs
  | .rename src dst =>
    match lookupA fs src with
    | some c => insertA (eraseA fs src) dst c
    | none => fs

def applyOps {α : Type} (fs : AList α) (ops : List (FsOp α)) : AList α :=
  ops.foldl applyOp fs

/-- `ResumableRunner.compute_cell_path`: `cell_traces/<tensor>/<key>.json`. -/
def cellTracePath (artifacts name : String) (indices : List Nat) : String :=
  artifacts ++ "/cell_traces/" ++ name ++ "/" ++ joinUnderscore indices ++ ".json"

/-- The `NamedTemporaryFile` path used by `save_cell_result`
(prefix `f".{cell_file.name}_"`, random part `rand`, suffix `".tmp"`). -/
def cellTmpPath (artifacts name : String) (indices : List Nat) (rand : String) : String :=
  artifacts ++ "/cell_traces/" ++ name ++ "/." ++ joinUnderscore indices ++ ".json" ++
    "_" ++ rand ++ ".tmp"

/-- `self.manifest_path`: `<artifacts>/run_manifest.json`. -/
def manifestPath (artifacts : String) : String :=
  artifacts ++ "/run_manifest.json"

/-- The `NamedTemporaryFile` path used by `save_manifest`. -/
def manifestTmpPath (artifacts rand : String) : String :=
  artifacts ++ "/.run_manifest.json" ++ "_" ++ rand ++ ".tmp"

/-- The operation sequence of `save_cell_result` (caching.py lines
351-361). -/
def saveCellResultOps (artifacts name : String) (indices : List Nat) (ts : ℚ)
    (result : Json) (rand : String) : List (FsOp Json) :=
  [.write (cellTmpPath artifacts name indices rand) (cellRecord name indices ts result),
   .fsyncFile (cellTmpPath artifacts name indices rand),
   .rename (cellTmpPath artifacts name indices rand) (cellTracePath artifacts name indices)]

/-- The operation sequence of `save_manifest` (caching.py lines
259-275). -/
def saveManifestOps (artifacts : String) (m : Manifest) (rand : String) :
    List (FsOp Manifest) :=
  [.write (manifestTmpPath artifacts rand) m,
   .fsyncFile (manifestTmpPath artifacts rand),
   .rename (manifestTmpPath artifacts rand) (manifestPath artifacts)]

theorem tmp_ne_json (x y : String) : x ++ ".tmp" ≠ y ++ ".json" := by
  intro h
  have hd := congrArg (fun s => s.data.reverse) h
  simp only [String.data_append, List.reverse_append] at hd
  have h1 : (".tmp" : String).data.reverse = ['p', 'm', 't', '.'] := rfl
  have h2 : (".json" : String).data.reverse = ['n', 'o', 's', 'j', '.'] := rfl
  rw [h1, h2] at hd
  simp at hd

theorem cellTmpPath_ne (artifacts name : String) (indices : List Nat) (rand : String) :
    cellTmpPath artifacts name indices rand ≠ cellTracePath artifacts name indices :=
  tmp_ne_json _ _

theorem manifestTmpPath_ne (artifacts rand : String) :
    manifestTmpPath artifacts rand ≠ manifestPath artifacts := by
  have : manifestPath artifacts = (artifacts ++ "/run_manifest") ++ ".json" := by
    simp only [manifestPath]
    apply strExt
    simp [String.data_append]
  rw [this]
  exact tmp_ne_json _ _

/-- **C7.** `save_cell_result` and `save_manifest` both consist of
exactly: write the serialized record to a temp file in the destination
directory, fsync it, atomically rename it over the canonical path; the
temp path is always distinct from the canonical path; after every
proper prefix of the operations (an interruption at any point before
the rename) the canonical path still holds exactly its previous content
(absent or the prior record — never a half-written file); and after the
full sequence it holds exactly the new serialized record. -/
theorem C7_atomic_write_crash_safe (artifacts name : String) (indices : List Nat)
    (ts : ℚ) (result : Json) (m : Manifest) (rand1 rand2 : String)
    (fs : AList Json) (fsm : AList Manifest) :
    saveCellResultOps artifacts name indices ts result rand1 =
      [.write (cellTmpPath artifacts name indices rand1)
          (cellRecord name indices ts result),
        .fsyncFile (cellTmpPath artifacts name indices rand1),
        .rename (cellTmpPath artifacts name indices rand1)
          (cellTracePath artifacts name indices)] ∧
    cellTmpPath artifacts name indices rand1 ≠ cellTracePath artifacts name indices ∧
    (∀ k, k < 3 →
      lookupA (applyOps fs ((saveCellResultOps artifacts name indices ts result rand1).take k))
          (cellTracePath artifacts name indices) =
        lookupA fs (cellTracePath artifacts name indices)) ∧
    lookupA (applyOps fs (saveCellResultOps artifacts name indices ts result rand1))
        (cellTracePath artifacts name indices) =
      some (cellRecord name indices ts result) ∧
    saveManifestOps artifacts m rand2 =
      [.write (manifestTmpPath artifacts rand2) m,
        .fsyncFile (manifestTmpPath artifacts rand2),
        .rename (manifestTmpPath artifacts rand2) (manifestPath artifacts)] ∧
    manifestTmpPath artifacts rand2 ≠ manifestPath artifacts ∧
    (∀ k, k < 3 →
      lookupA (applyOps fsm ((saveManifestOps artifacts m rand2).take k))
          (manifestPath artifacts) =
        lookupA fsm (manifestPath artifacts)) ∧
    lookupA (applyOps fsm (saveManifestOps artifacts m rand2))
        (manifestPath artifacts) = some m := by
  have hne1 := cellTmpPath_ne artifacts name indices rand1
  have hne2 := manifestTmpPath_ne artifacts rand2
  refine ⟨rfl, hne1, ?_, ?_, rfl, hne2, ?_, ?_⟩
  · intro k hk
    interval_cases k
    · rfl
    · simp only [saveCellResultOps, List.take, applyOps, List.foldl, applyOp]
      exact lookupA_insertA_ne fs _ _ _ hne1
    · simp only [saveCellResultOps, List.take, applyOps, List.foldl, applyOp]
      exact lookupA_insertA_ne fs _ _ _ hne1
  · simp only [saveCellResultOps, applyOps, List.foldl, applyOp,
      lookupA_insertA_self]
  · intro k hk
    interval_cases k
    · rfl
    · simp only [saveManifestOps, List.take, applyOps, List.foldl, applyOp]
      exact lookupA_insertA_ne fsm _ _ _ hne2
    · simp only [saveManifestOps, List.take, applyOps, List.foldl, applyOp]
      exact lookupA_insertA_ne fsm _ _ _ hne2
  · simp only [saveManifestOps, applyOps, List.foldl, applyOp,
      lookupA_insertA_self]

/-- Witness for C7: interrupting a concrete cell-record save after the
temp write leaves the canonical path absent; the completed save fills
it; likewise for the manifest. -/
theorem C7_atomic_write_crash_safe_witness :
    lookupA (applyOps ([] : AList Json)
        ((saveCellResultOps "art" "M" [0] 0 (Json.obj [("result", .str "v")]) "r1").take 1))
        (cellTracePath "art" "M" [0]) = lookupA ([] : AList Json) (cellTracePath "art" "M" [0]) ∧
    lookupA (applyOps ([] : AList Json)
        (saveCellResultOps "art" "M" [0] 0 (Json.obj [("result", .str "v")]) "r1"))
        (cellTracePath "art" "M" [0]) =
      some (cellRecord "M" [0] 0 (Json.obj [("result", .str "v")])) ∧
    lookupA (applyOps ([] : AList Manifest) ((saveManifestOps "art" emptyManifest "r2").take 2))
        (manifestPath "art") = lookupA ([] : AList Manifest) (manifestPath "art") ∧
    lookupA (applyOps ([] : AList Manifest) (saveManifestOps "art" emptyManifest "r2"))
        (manifestPath "art") = some emptyManifest := by
  have h := C7_atomic_write_crash_safe "art" "M" [0] 0
    (Json.obj [("result", .str "v")]) emptyManifest "r1" "r2" [] []
  exact ⟨h.2.2.1 1 (by omega), h.2.2.2.1, h.2.2.2.2.2.2.1 2 (by omega),
    h.2.2.2.2.2.2.2⟩

/-! ## Tensor engine orchestration
(`chirality/application/phase2/tensor_engine.py`, `TensorEngine.compute_tensor`,
lines 96-207)

The per-cell loop with its three-way skip logic. `worker idx` stands
for `_compute_tensor_cell` — the fresh computation through the
resilient invocation layer and repair loop (§C4/§C5), which performs at
least one external-worker invocation; `workerCalls` counts fresh
computations, so "zero external-worker invocations" is `workerCalls`
unchanged. `keyOf idx` stands for `_compute_cache_key` (the fingerprint
of §C6 applied to the cell's operands), `tsOf idx` for `time.time()` at
the cell's save. -/

structure EngineState where
  cache : CellCacheState
  runner : ResumState
  workerCalls : Nat

/-- The `stats` block of the returned tensor. -/
structure TensorStats where
  cells_computed : Nat
  cells_from_cache : Nat
  cells_from_resume : Nat
  deriving DecidableEq

/-- Fresh computation of one cell (tensor_engine.py lines 166-179):
invoke the worker, write the value through the cache, persist it to the
resumable store when one is configured. The cache's persistent-tier
write is modelled as succeeding; a failure there is swallowed (§C2) and
changes nothing observed by compute_tensor. -/
def freshCompute (name : String) (worker : List Nat → Json) (keyOf : List Nat → String)
    (tsOf : List Nat → ℚ) (hasRunner : Bool) (st : EngineState) (stats : TensorStats)
    (cells : List (List Nat × Json)) (idx : List Nat) :
    EngineState × TensorStats × List (List Nat × Json) :=
  let v := worker idx
  let cache2 := CellCache.put st.cache (keyOf idx) v true
  let runner2 :=
    if hasRunner then save_cell_result st.runner name idx (tsOf idx) v else st.runner
  (⟨cache2, runner2, st.workerCalls + 1⟩,
    { stats with cells_computed := stats.cells_computed + 1 },
    cells ++ [(idx, v)])

/-- Cache consultation (tensor_engine.py lines 156-164): `cache.get`,
then Python truthiness `if cached_result:`; a miss (or falsy hit) falls
through to the fresh computation. -/
def cacheOrCompute (name : String) (worker : List Nat → Json) (keyOf : List Nat → String)
    (tsOf : List Nat → ℚ) (hasRunner : Bool) (st : EngineState) (stats : TensorStats)
    (cells : List (List Nat × Json)) (idx : List Nat) :
    EngineState × TensorStats × List (List Nat × Json) :=
  let g := CellCache.get st.cache (keyOf idx)
  let st2 : EngineState := ⟨g.2, st.runner, st.workerCalls⟩
  match g.1 with
  | some v =>
    if v.truthy then
      (st2, { stats with cells_from_cache := stats.cells_from_cache + 1 },
        cells ++ [(idx, v)])
    else freshCompute name worker keyOf tsOf hasRunner st2 stats cells idx
  | none => freshCompute name worker keyOf tsOf hasRunner st2 stats cells idx

/-- One iteration of the cell loop (tensor_engine.py lines 144-179):
resumable store first (`if self.resumable_runner` and the key is among
the completed cells, `load_cell_result` with truthiness
`if resumed_result:`), then cache, then fresh computation. -/
def cellStep (name : String) (worker : List Nat → Json) (keyOf : List Nat → String)
    (tsOf : List Nat → ℚ) (hasRunner : Bool) (completed : List String)
    (acc : EngineState × TensorStats × List (List Nat × Json)) (idx : List Nat) :
    EngineState × TensorStats × List (List Nat × Json) :=
  let st := acc.1
  let stats := acc.2.1
  let cells := acc.2.2
  if hasRunner = true ∧ joinUnderscore idx ∈ completed then
    let lr := load_cell_result st.runner name idx
    let st2 : EngineState := ⟨st.cache, lr.2, st.workerCalls⟩
    match lr.1 with
    | some v =>
      if v.truthy then
        (st2, { stats with cells_from_resume := stats.cells_from_resume + 1 },
          cells ++ [(idx, v)])
      else cacheOrCompute name worker keyOf tsOf hasRunner st2 stats cells idx
    | none => cacheOrCompute name worker keyOf tsOf hasRunner st2 stats cells idx
  else cacheOrCompute name worker keyOf tsOf hasRunner st stats cells idx

/-- `TensorEngine.compute_tensor` over an already-enumerated (possibly
pruned) index set: scan the completed cells when `resume` is set and a
runner is configured, run the per-cell loop, then record progress in
the manifest. Returns the final state, the stats block, and the
computed cells. -/
def compute_tensor_cells (name : String) (worker : List Nat → Json)
    (keyOf : List Nat → String) (tsOf : List Nat → ℚ) (resume hasRunner : Bool)
    (indices : List (List Nat)) (st0 : EngineState) :
    EngineState × TensorStats × List (List Nat × Json) :=
  let scan :=
    if resume && hasRunner then get_completed_cells st0.runner name
    else ([], st0.runner)
  let st1 : EngineState := ⟨st0.cache, scan.2, st0.workerCalls⟩
  let out := indices.foldl (cellStep name worker keyOf tsOf hasRunner scan.1)
    (st1, ⟨0, 0, 0⟩, [])
  let stats := out.2.1
  let final : EngineState :=
    if hasRunner then
      ⟨out.1.cache,
        update_progress out.1.runner name
          ((stats.cells_computed + stats.cells_from_cache + stats.cells_from_resume : Nat) : Int)
          (indices.length : Int),
        out.1.workerCalls⟩
    else out.1
  (final, stats, out.2.2)

/-- A valid resumable record for a cell: the trace file parses and its
`"result"` field is present and truthy — precisely the condition under
which the engine's resume path accepts it. -/
def validResumeRecord (cells : List (String × String × FileContent Json))
    (name key : String) : Prop :=
  ∃ j v, findCell cells name key = some (.good j) ∧
    j.getField "result" = some v ∧ v.truthy = true

theorem mem_completed_of_findCell_good (name key : String) :
    ∀ (cells : List (String × String × FileContent Json)) (j : Json),
      findCell cells name key = some (.good j) →
      key ∈ cells.filterMap (fun e =>
        if e.1 = name then
          match e.2.2 with
          | .good _ => some e.2.1
          | .corrupt => none
        else none) := by
  intro cells
  induction cells with
  | nil => intro j h; simp [findCell] at h
  | cons hd tl ih =>
    obtain ⟨t, k, c⟩ := hd
    intro j h
    rw [findCell] at h
    by_cases hm : t = name ∧ k = key
    · rw [if_pos hm] at h
      have hc : c = .good j := by
        injection h
      subst hc
      rw [List.filterMap_cons]
      simp only [hm.1, if_pos rfl]
      rw [hm.2]
      exact List.mem_cons_self _ _
    · rw [if_neg hm] at h
      rw [List.filterMap_cons]
      split
      · exact ih j h
      · exact List.mem_cons_of_mem _ (ih j h)

theorem findCell_filter_of_good (name key : String) :
    ∀ (cells : List (String × String × FileContent Json)) (j : Json),
      findCell cells name key = some (.good j) →
      findCell (cells.filter (fun e => !(e.1 == name && e.2.2.isCorrupt))) name key =
        some (.good j) := by
  intro cells
  induction cells with
  | nil => intro j h; simp [findCell] at h
  | cons hd tl ih =>
    obtain ⟨t, k, c⟩ := hd
    intro j h
    rw [findCell] at h
    by_cases hm : t = name ∧ k = key
    · rw [if_pos hm] at h
      have hc : c = .good j := by
        injection h
      subst hc
      rw [List.filter_cons]
      simp only [FileContent.isCorrupt, Bool.and_false, Bool.not_false, if_pos]
      rw [findCell, if_pos hm]
    · rw [if_neg hm] at h
      rw [List.filter_cons]
      by_cases hkeep : (!((t == name) && c.isCorrupt)) = true
      · rw [if_pos hkeep]
        rw [findCell, if_neg hm]
        exact ih j h
      · rw [if_neg hkeep]
        exact ih j h

theorem cellStep_resume (name : String) (worker : List Nat → Json)
    (keyOf : List Nat → String) (tsOf : List Nat → ℚ) (completed : List String)
    (st : EngineState) (stats : TensorStats) (cells : List (List Nat × Json))
    (idx : List Nat) (hmem : joinUnderscore idx ∈ completed)
    (hval : validResumeRecord st.runner.cells name (joinUnderscore idx)) :
    ∃ v, cellStep name worker keyOf tsOf true completed (st, stats, cells) idx =
      (st, { stats with cells_from_resume := stats.cells_from_resume + 1 },
        cells ++ [(idx, v)]) := by
  obtain ⟨j, v, hfind, hget, htr⟩ := hval
  refine ⟨v, ?_⟩
  rw [cellStep]
  rw [if_pos ⟨rfl, hmem⟩]
  have hload : load_cell_result st.runner name idx = (some v, st.runner) := by
    simp [load_cell_result, hfind, hget]
  simp only [hload, htr, if_pos]

theorem loop_resume (name : String) (worker : List Nat → Json)
    (keyOf : List Nat → String) (tsOf : List Nat → ℚ) (completed : List String) :
    ∀ (indices : List (List Nat)) (st : EngineState) (stats : TensorStats)
      (cells : List (List Nat × Json)),
      (∀ idx ∈ indices, joinUnderscore idx ∈ completed ∧
        validResumeRecord st.runner.cells name (joinUnderscore idx)) →
      (indices.foldl (cellStep name worker keyOf tsOf true completed)
        (st, stats, cells)).1 = st ∧
      (indices.foldl (cellStep name worker keyOf tsOf true completed)
        (st, stats, cells)).2.1 =
        ⟨stats.cells_computed, stats.cells_from_cache,
          stats.cells_from_resume + indices.length⟩ := by
  intro indices
  induction indices with
  | nil =>
    intro st stats cells _h
    exact ⟨rfl, rfl⟩
  | cons idx rest ih =>
    intro st stats cells h
    obtain ⟨sc, sf, sr⟩ := stats
    obtain ⟨hmem, hval⟩ := h idx (List.mem_cons_self _ _)
    obtain ⟨v, hstep⟩ := cellStep_resume name worker keyOf tsOf completed st ⟨sc, sf, sr⟩
      cells idx hmem hval
    rw [List.foldl_cons, hstep]
    have hrest := ih st ⟨sc, sf, sr + 1⟩
      (cells ++ [(idx, v)]) (fun i hi => h i (List.mem_cons_of_mem _ hi))
    refine ⟨hrest.1, ?_⟩
    rw [hrest.2]
    simp only [TensorStats.mk.injEq, List.length_cons, true_and]
    omega

/-- **C1.** Resume-before-recompute: on a run with `resume = true` and
a configured resumable runner, over a resumable store already holding a
valid record (parseable, with a truthy `result` field) for every index
in the set, `compute_tensor_cells` serves every cell from the resumable
store: `cells_from_resume` equals the total cell count, nothing is
computed or served from cache, and no fresh worker computation — hence
no external-worker invocation — happens. -/
theorem C1_resume_before_recompute (name : String) (worker : List Nat → Json)
    (keyOf : List Nat → String) (tsOf : List Nat → ℚ)
    (indices : List (List Nat)) (st0 : EngineState)
    (hres : ∀ idx ∈ indices,
      validResumeRecord st0.runner.cells name (joinUnderscore idx)) :
    (compute_tensor_cells name worker keyOf tsOf true true indices st0).2.1.cells_from_resume =
      indices.length ∧
    (compute_tensor_cells name worker keyOf tsOf true true indices st0).2.1.cells_computed = 0 ∧
    (compute_tensor_cells name worker keyOf tsOf true true indices st0).2.1.cells_from_cache = 0 ∧
    (compute_tensor_cells name worker keyOf tsOf true true indices st0).1.workerCalls =
      st0.workerCalls := by
  have hloop := loop_resume name worker keyOf tsOf (get_completed_cells st0.runner name).1
    indices ⟨st0.cache, (get_completed_cells st0.runner name).2, st0.workerCalls⟩
    ⟨0, 0, 0⟩ []
    (by
      intro idx hidx
      obtain ⟨j, v, hfind, hget, htr⟩ := hres idx hidx
      constructor
      · exact mem_completed_of_findCell_good name _ st0.runner.cells j hfind
      · exact ⟨j, v, findCell_filter_of_good name _ st0.runner.cells j hfind,
          hget, htr⟩)
  simp only [compute_tensor_cells, Bool.and_self, eq_self_iff_true, if_true]
  rw [hloop.1, hloop.2]
  simp

/-- Witness for C1: a two-cell store whose records both carry a truthy
result resumes both cells with no fresh computation. -/
theorem C1_resume_before_recompute_witness :
    (compute_tensor_cells "M" (fun _ => Json.null) (fun _ => "k") (fun _ => 0)
        true true [[0], [1]]
        ⟨⟨true, [], []⟩,
          ⟨[("M", joinUnderscore [0],
              .good (Json.obj [("result", Json.obj [("value", .str "a")])])),
            ("M", joinUnderscore [1],
              .good (Json.obj [("result", Json.obj [("value", .str "b")])]))],
            none⟩, 0⟩).2.1.cells_from_resume = 2 ∧
    (compute_tensor_cells "M" (fun _ => Json.null) (fun _ => "k") (fun _ => 0)
        true true [[0], [1]]
        ⟨⟨true, [], []⟩,
          ⟨[("M", joinUnderscore [0],
              .good (Json.obj [("result", Json.obj [("value", .str "a")])])),
            ("M", joinUnderscore [1],
              .good (Json.obj [("result", Json.obj [("value", .str "b")])]))],
            none⟩, 0⟩).1.workerCalls = 0 := by
  have h := C1_resume_before_recompute "M" (fun _ => Json.null) (fun _ => "k")
    (fun _ => 0) [[0], [1]]
    ⟨⟨true, [], []⟩,
      ⟨[("M", joinUnderscore [0],
          .good (Json.obj [("result", Json.obj [("value", .str "a")])])),
        ("M", joinUnderscore [1],
          .good (Json.obj [("result", Json.obj [("value", .str "b")])]))],
        none⟩, 0⟩
    (by
      intro idx hidx
      simp only [List.mem_cons, List.not_mem_nil, or_false] at hidx
      rcases hidx with h1 | h1 <;> subst h1
      · exact ⟨Json.obj [("result", Json.obj [("value", .str "a")])],
          Json.obj [("value", .str "a")],
          by simp [findCell], by simp [Json.getField, lookupA], rfl⟩
      · refine ⟨Json.obj [("result", Json.obj [("value", .str "b")])],
          Json.obj [("value", .str "b")], ?_,
          by simp [Json.getField, lookupA], rfl⟩
        have hne : ¬("M" = "M" ∧ joinUnderscore [0] = joinUnderscore [1]) := by
          intro hcon
          have := joinUnderscore_inj [0] [1] hcon.2
          simp at this
        rw [findCell, if_neg hne, findCell, if_pos ⟨rfl, rfl⟩])
  exact ⟨h.1, h.2.2.2⟩

end Chirality
